import Mathlib

/-!
Shallow embedding of the IndexedDB backend of the StorageUtility repository
(file `src/IndexedDB.js`).  JavaScript values are modelled by the inductive
type `JSVal`; JS objects are association lists of string keys to values.
Each Lean definition transliterates one function of the source file, keeping
the source's name where possible.
-/

/-- Model of a JavaScript value as manipulated by `src/IndexedDB.js`.
`date ms` models a `Date` object whose `getTime()` is `ms`. -/
inductive JSVal where
  | undef : JSVal
  | null : JSVal
  | boolean : Bool → JSVal
  | num : Int → JSVal
  | str : String → JSVal
  | date : Int → JSVal
  | arr : List JSVal → JSVal
  | obj : List (String × JSVal) → JSVal
deriving Repr

/-- A JavaScript object: an association list from property names to values. -/
abbrev JSObj := List (String × JSVal)

/-- The `'k' in o` test of JavaScript. -/
def hasField (o : JSObj) (k : String) : Bool :=
  o.any (fun kv => kv.1 == k)

/-- Property access `o.k` on an object: the value at the first matching key,
`undefined` when the key is absent. -/
def getField (o : JSObj) (k : String) : JSVal :=
  match o.find? (fun kv => kv.1 == k) with
  | some kv => kv.2
  | none => JSVal.undef

/-- Property assignment `o.k = v` (also the spread-override `{...o, k: v}`):
replaces the value at an existing key, otherwise appends the binding. -/
def setField (o : JSObj) (k : String) (v : JSVal) : JSObj :=
  if hasField o k then o.map (fun kv => if kv.1 == k then (k, v) else kv)
  else o ++ [(k, v)]

/-- JavaScript truthiness.  `undefined`, `null`, `false`, `0` and `""` are
falsy; every object (including `Date`, arrays and empty objects) is truthy. -/
def truthy : JSVal → Bool
  | JSVal.undef => false
  | JSVal.null => false
  | JSVal.boolean b => b
  | JSVal.num n => n != 0
  | JSVal.str s => s != ""
  | JSVal.date _ => true
  | JSVal.arr _ => true
  | JSVal.obj _ => true

/-- The JavaScript `typeof` operator. -/
def typeOf : JSVal → String
  | JSVal.undef => "undefined"
  | JSVal.null => "object"
  | JSVal.boolean _ => "boolean"
  | JSVal.num _ => "number"
  | JSVal.str _ => "string"
  | JSVal.date _ => "object"
  | JSVal.arr _ => "object"
  | JSVal.obj _ => "object"

/-- The `x instanceof Date` test. -/
def instanceofDate : JSVal → Bool
  | JSVal.date _ => true
  | _ => false

/-- The `Array.isArray` test. -/
def isArray : JSVal → Bool
  | JSVal.arr _ => true
  | _ => false

/-- Property access `v.k` on an arbitrary value: objects look the key up,
every other value yields `undefined` (primitives have none of the accessed
properties; access on `null`/`undefined` is guarded by `?.` in the source). -/
def jsGet (v : JSVal) (k : String) : JSVal :=
  match v with
  | JSVal.obj o => getField o k
  | _ => JSVal.undef

/-- Element access `v[0]` as used on `options.indexes`: the head of an array,
the property named `"0"` of a plain object, `undefined` otherwise. -/
def jsIndex0 : JSVal → JSVal
  | JSVal.arr xs => xs.headD JSVal.undef
  | JSVal.obj o => getField o "0"
  | _ => JSVal.undef

/-- Numeric value of the numbers and dates the library stores and compares. -/
def numVal : JSVal → Int
  | JSVal.num n => n
  | JSVal.date ms => ms
  | _ => 0

/-- The comparison `now > v` of JavaScript, for the value shapes that occur as
an `expires` field.  Comparison with `undefined` is `NaN`-poisoned and hence
false; `null` and booleans coerce to `0` and `0/1`; exotic coercions of
strings, arrays and objects are not modelled (no theorem touches them). -/
def jsGtNum (now : Int) : JSVal → Bool
  | JSVal.num n => now > n
  | JSVal.date ms => now > ms
  | JSVal.null => now > 0
  | JSVal.boolean b => now > (if b then (1 : Int) else 0)
  | _ => false

/-- String form of a value inside a template literal, for the shapes that can
reach the not-found error message. -/
def jsDisplay : JSVal → String
  | JSVal.num n => toString n
  | JSVal.str s => s
  | JSVal.boolean b => if b then "true" else "false"
  | JSVal.undef => "undefined"
  | JSVal.null => "null"
  | _ => "[object]"

/-- The process-wide configuration object handed to `IndexedDBUtility`. -/
structure Settings where
  INDEXEDDB_DATABASE : String
  LIFETIME : Int
  INDEXEDDB_CLOSE_AFTER_REQUEST : Bool
  AS_OBJECT : Bool
deriving Repr, DecidableEq

/-- The strict-equality test `v === 's'` against a string literal. -/
def isStr (v : JSVal) (s : String) : Bool :=
  match v with
  | JSVal.str t => t == s
  | _ => false

/-- IndexedDB key equality for the scalar key shapes this library uses
(numbers, strings, dates); used by `store.get`, `store.delete` and index
lookups.  Non-key values never compare equal. -/
def idbKeyEq : JSVal → JSVal → Bool
  | JSVal.num a, JSVal.num b => a == b
  | JSVal.str a, JSVal.str b => a == b
  | JSVal.date a, JSVal.date b => a == b
  | _, _ => false

/-- The condition of source line 299-301 on `options.indexes[0]`: the first
element lacks a string `indexName`, a string `indexKey`, a boolean
`indexOptions.unqiue` (sic) or a boolean `indexOptions.multiEntry`. -/
def firstIndexMalformed (ix : JSVal) : Bool :=
  typeOf (jsGet (jsIndex0 ix) "indexName") != "string" ||
  typeOf (jsGet (jsIndex0 ix) "indexKey") != "string" ||
  typeOf (jsGet (jsGet (jsIndex0 ix) "indexOptions") "unqiue") != "boolean" ||
  typeOf (jsGet (jsGet (jsIndex0 ix) "indexOptions") "multiEntry") != "boolean"

/-- `validateOptionsWrite(data, options, settings)` of source lines 268-307,
with the ambient clock `Date.now()` passed as `now`.  Mutation of the
`options` object is threaded; a `throw` becomes `Except.error`. -/
def validateOptionsWrite (data : JSObj) (options : JSObj) (settings : Settings)
    (now : Int) : Except String JSObj := do
  let options := if !truthy (getField options "expires") then
      setField options "expires" (JSVal.date (now + settings.LIFETIME))
    else options
  if !instanceofDate (getField options "expires") &&
      typeOf (getField options "expires") != "number" then
    throw "Expires can only be a number or a date object"
  let options := if truthy (getField options "expires") &&
      typeOf (getField options "expires") == "number" then
      setField options "expires" (JSVal.date (now + numVal (getField options "expires")))
    else options
  if truthy (getField options "update") && typeOf (getField options "update") != "boolean" then
    throw "Option.update must be a boolean"
  let options := if typeOf (getField options "update") != "boolean" then
      setField options "update" (JSVal.boolean false)
    else options
  if truthy (getField options "database") && typeOf (getField options "database") != "string" then
    throw "Option.database must be a string"
  let options := if !truthy (getField options "database") then
      setField options "database" (JSVal.str settings.INDEXEDDB_DATABASE)
    else options
  if truthy (getField options "closeDatabase") &&
      typeOf (getField options "closeDatabase") != "boolean" then
    throw "Option.closeDatabase must be a boolean"
  let options := if typeOf (getField options "closeDatabase") != "boolean" then
      setField options "closeDatabase" (JSVal.boolean settings.INDEXEDDB_CLOSE_AFTER_REQUEST)
    else options
  if truthy (getField options "update") &&
      (!hasField data "id" || typeOf (getField data "id") != "number") then
    throw "In order to update the data, you have to provide an id as number in your data object."
  if truthy (getField options "indexes") &&
      (!isArray (getField options "indexes") || firstIndexMalformed (getField options "indexes")) then
    throw "The Array 'indexes' in option does not meet the requirements."
  return options

/-- `validateDataWrite(data, options)` of source lines 309-326.  `data` is an
object here, so the first guard of line 310 is vacuous. -/
def validateDataWrite (data : JSObj) (options : JSObj) : Except String Unit := do
  if hasField data "expires" then
    throw "You are not allowed to add \"expires\" in the data object"
  if hasField data "createdAt" then
    throw "You are not allowed to add \"createdAt\" in the data object"
  if !truthy (getField options "update") && hasField data "id" then
    throw "You are not allowed to add \"id\" in the data object if you are not updating the data"
  if hasField data "updatedAt" then
    throw "You are not allowed to add \"updatedAt\" in the data object"
  return ()

/-- `validateOptionsRead(options, settings)` of source lines 386-416. -/
def validateOptionsRead (options : JSObj) (settings : Settings) : Except String JSObj := do
  if truthy (getField options "database") && typeOf (getField options "database") != "string" then
    throw "Option.database must be a string"
  let options := if !truthy (getField options "database") then
      setField options "database" (JSVal.str settings.INDEXEDDB_DATABASE)
    else options
  if truthy (getField options "id") && typeOf (getField options "id") != "number" then
    throw "Option.closeDatabase must be a number"
  if truthy (getField options "closeDatabase") &&
      typeOf (getField options "closeDatabase") != "boolean" then
    throw "Option.closeDatabase must be a boolean"
  let options := if typeOf (getField options "closeDatabase") != "boolean" then
      setField options "closeDatabase" (JSVal.boolean settings.INDEXEDDB_CLOSE_AFTER_REQUEST)
    else options
  if truthy (getField options "index") && typeOf (getField options "index") != "string" then
    throw "Option.index must be a string"
  if truthy (getField options "nameValue") && typeOf (getField options "nameValue") != "string" &&
      typeOf (getField options "nameValue") != "number" then
    throw "Option.nameValue must be a string or number"
  if truthy (getField options "withMeta") && typeOf (getField options "withMeta") != "boolean" then
    throw "options.withMeta must be a boolean"
  let options := if typeOf (getField options "withMeta") != "boolean" then
      setField options "withMeta" (JSVal.boolean settings.AS_OBJECT)
    else options
  return options

/-- `validateDeleteOptions(options, settings)` of source lines 515-541. -/
def validateDeleteOptions (options : JSObj) (settings : Settings) : Except String JSObj := do
  if truthy (getField options "storeName") && typeOf (getField options "storeName") != "string" then
    throw "Option.storeName must be a string"
  let options := if typeOf (getField options "type") != "string" then
      setField options "type" (JSVal.str "data")
    else options
  if !isStr (getField options "type") "data" &&
      !isStr (getField options "type") "database" &&
      !isStr (getField options "type") "store" then
    throw "Option.type must be \"database\", \"data\" or \"store\""
  if truthy (getField options "database") && typeOf (getField options "database") != "string" then
    throw "Option.database must be a string"
  let options := if !truthy (getField options "database") then
      setField options "database" (JSVal.str settings.INDEXEDDB_DATABASE)
    else options
  if truthy (getField options "closeDatabase") &&
      typeOf (getField options "closeDatabase") != "boolean" then
    throw "Option.closeDatabase must be a boolean"
  let options := if typeOf (getField options "closeDatabase") != "boolean" then
      setField options "closeDatabase" (JSVal.boolean settings.INDEXEDDB_CLOSE_AFTER_REQUEST)
    else options
  return options

/-- String payload of a string value (the shapes reaching it are strings). -/
def strOf : JSVal → String
  | JSVal.str s => s
  | _ => ""

/-- An index declaration as handed to `store.createIndex` (source line 249);
the field `unqiue` reproduces the source's spelling of the option key. -/
structure IndexDecl where
  indexName : String
  indexKey : String
  unqiue : Bool
  multiEntry : Bool
deriving Repr, DecidableEq

/-- An object store: creation options (source lines 224-227), its index list
and its records. -/
structure StoreData where
  keyPath : String
  autoIncrement : Bool
  indexes : List IndexDecl
  records : List JSObj
deriving Repr

/-- Lookup in an association list keyed by strings. -/
def alGet {α : Type} (l : List (String × α)) (k : String) : Option α :=
  (l.find? (fun p => p.1 == k)).map (fun p => p.2)

/-- Key-membership in an association list. -/
def alHas {α : Type} (l : List (String × α)) (k : String) : Bool :=
  l.any (fun p => p.1 == k)

/-- Update (or append) the binding of a key in an association list. -/
def alSet {α : Type} (l : List (String × α)) (k : String) (v : α) : List (String × α) :=
  if alHas l k then l.map (fun p => if p.1 == k then (k, v) else p)
  else l ++ [(k, v)]

/-- Remove every binding of a key from an association list. -/
def alRemove {α : Type} (l : List (String × α)) (k : String) : List (String × α) :=
  l.filter (fun p => p.1 != k)

/-- Global state of the model: the persisted databases (each a map from store
name to store), the connection cache `DatabaseUtility._databaseList` (the set
of database names holding a cached live connection), and a log of the native
requests issued so far. -/
structure ScState where
  dbs : List (String × List (String × StoreData))
  cache : List String
  trace : List String
deriving Repr

/-- Append a native-request entry to the log. -/
def pushTrace (st : ScState) (s : String) : ScState :=
  { st with trace := st.trace ++ [s] }

/-- The stores of a database, when the database exists. -/
def dbStores? (st : ScState) (dbName : String) : Option (List (String × StoreData)) :=
  alGet st.dbs dbName

/-- A store of a database, when both exist. -/
def storeData? (st : ScState) (dbName storeName : String) : Option StoreData :=
  (alGet st.dbs dbName).bind (fun stores => alGet stores storeName)

/-- The records of a store, empty when the database or store is absent. -/
def storeRecsD (st : ScState) (dbName storeName : String) : List JSObj :=
  ((storeData? st dbName storeName).map (fun sd => sd.records)).getD []

/-- `DatabaseUtility.openDB` (source lines 145-163): a cached connection is
returned as-is; otherwise a native `indexedDB.open` at a fresh
timestamp-version is issued, which fires `onupgradeneeded` (creating the
database when absent) and then caches the connection.  The returned flag
reports whether a native open was issued. -/
def openDBModel (st : ScState) (dbName : String)
    (upgrade : Option (List (String × StoreData) → List (String × StoreData))) :
    ScState × Bool :=
  if st.cache.contains dbName then (st, false)
  else
    let stores := (alGet st.dbs dbName).getD []
    let stores := match upgrade with
      | some f => f stores
      | none => stores
    ({ dbs := alSet st.dbs dbName stores,
       cache := dbName :: st.cache,
       trace := st.trace ++ ["indexedDB.open " ++ dbName] }, true)

/-- `DatabaseUtility.closeDB` (source lines 169-178): evict and close a cached
connection, resolving `true`; with no cached connection resolve `undefined`
(modelled `none`).  Both outcomes are successful resolutions. -/
def closeDBModel (st : ScState) (dbName : String) : ScState × Option Bool :=
  if st.cache.contains dbName then
    ({ st with cache := st.cache.filter (fun n => n != dbName) }, some true)
  else (st, none)

/-- `DatabaseUtility.getDB` (source lines 184-192). -/
def getDBModel (st : ScState) (dbName : String) : Except String Unit :=
  if st.cache.contains dbName then Except.ok ()
  else Except.error ("please open " ++ dbName ++ " DB first")

/-- `DatabaseUtility.getStore` (source lines 199-212): requires a cached
connection, then resolves a readwrite handle on the store (its records) or
rejects when the store does not exist. -/
def getStoreModel (st : ScState) (dbName storeName : String) : Except String (List JSObj) :=
  match getDBModel st dbName with
  | Except.error e => Except.error e
  | Except.ok () =>
    match alGet ((alGet st.dbs dbName).getD []) storeName with
    | some sd => Except.ok sd.records
    | none => Except.error ("The store '" ++ storeName ++ "' in '" ++ dbName ++ "' doesn't exist")

/-- The implicit index added first by `createStore` (source lines 229-236). -/
def idIndexDecl : IndexDecl :=
  { indexName := "id", indexKey := "id", unqiue := true, multiEntry := false }

/-- Whether the `indexes.forEach(e => store.createIndex(...))` loop of
`createStore` (source line 249) throws `ConstraintError`: some index name is
created a second time. -/
def hasDupIndexName : List IndexDecl → Bool
  | [] => false
  | d :: t => t.any (fun e => e.indexName == d.indexName) || hasDupIndexName t

/-- `DatabaseUtility.createStore` (source lines 221-255): open the database
(from cache when possible); only a native open fires the upgrade handler.
The upgrade returns early when the store already exists; otherwise it creates
the store with `{keyPath: 'id', autoIncrement: true}` and the implicit `id`
index followed by the caller's indexes in order — but `store.createIndex`
(line 249) throws `ConstraintError` on a duplicate index name, which aborts
the versionchange transaction: the creation is rolled back (databases
unchanged) and the open request errors instead of firing `onsuccess`, so
nothing is cached.  The flag reports whether a native open was issued. -/
def createStoreModel (st : ScState) (dbName storeName : String)
    (indexes : List IndexDecl) : ScState × Bool :=
  if st.cache.contains dbName then (st, false)
  else
    let stores := (alGet st.dbs dbName).getD []
    let fullIndexes := idIndexDecl :: indexes
    if alHas stores storeName then
      ({ dbs := alSet st.dbs dbName stores, cache := dbName :: st.cache,
         trace := st.trace ++ ["indexedDB.open " ++ dbName] }, true)
    else if hasDupIndexName fullIndexes then
      ({ st with trace := st.trace ++ ["indexedDB.open " ++ dbName] }, true)
    else
      ({ dbs := alSet st.dbs dbName (alSet stores storeName
           { keyPath := "id", autoIncrement := true, indexes := fullIndexes,
             records := [] }),
         cache := dbName :: st.cache,
         trace := st.trace ++ ["indexedDB.open " ++ dbName] }, true)

/-- The key the auto-increment generator assigns to the next record. -/
def nextAutoId (recs : List JSObj) : Int :=
  (recs.foldl (fun m r => max m (numVal (getField r "id"))) 0) + 1

/-- `createDataInStore` (source lines 362-384): `store.add` on the envelope
`{...data, expires, createdAt, updatedAt}`; the key generator injects the new
`id` at the key path. -/
def createDataInStoreModel (recs : List JSObj) (data : JSObj) (expiresMs now : Int) :
    List JSObj :=
  let envelope := setField (setField (setField data "expires" (JSVal.num expiresMs))
    "createdAt" (JSVal.num now)) "updatedAt" (JSVal.num now)
  recs ++ [setField envelope "id" (JSVal.num (nextAutoId recs))]

/-- `updateDataInStore` (source lines 328-361): fetch the record at `data.id`;
when found, `store.put` the object `{...data, expires: existing.expires,
createdAt: existing.createdAt, updatedAt: now}`; otherwise reject with the
not-found message naming the database and the id. -/
def updateDataInStoreModel (recs : List JSObj) (data : JSObj) (dbName : String)
    (now : Int) : Except String (List JSObj) :=
  match recs.find? (fun r => idbKeyEq (getField r "id") (getField data "id")) with
  | some existing =>
      let updated := setField (setField (setField data "expires" (getField existing "expires"))
        "createdAt" (getField existing "createdAt")) "updatedAt" (JSVal.num now)
      Except.ok (recs.map (fun r =>
        if idbKeyEq (getField r "id") (getField data "id") then updated else r))
  | none => Except.error ("Error while updating data in " ++ dbName ++ ". Id " ++
      jsDisplay (getField data "id") ++ " not found.")

/-- Reading of one element of `options.indexes` by `createStore`'s
`forEach` (source line 249). -/
def parseIndexDecl (v : JSVal) : IndexDecl :=
  { indexName := strOf (jsGet v "indexName")
    , indexKey := strOf (jsGet v "indexKey")
    , unqiue := match jsGet (jsGet v "indexOptions") "unqiue" with
        | JSVal.boolean b => b
        | _ => false
    , multiEntry := match jsGet (jsGet v "indexOptions") "multiEntry" with
        | JSVal.boolean b => b
        | _ => false }

/-- The caller-declared index list as consumed by `createStore`. -/
def parseIndexes : JSVal → List IndexDecl
  | JSVal.arr xs => xs.map parseIndexDecl
  | _ => []

/-- Replace the records of an existing store, leaving everything else as-is. -/
def setStoreRecs (st : ScState) (dbName storeName : String) (recs : List JSObj) : ScState :=
  match alGet st.dbs dbName with
  | some stores =>
    match alGet stores storeName with
    | some sd =>
      { st with dbs := alSet st.dbs dbName (alSet stores storeName { sd with records := recs }) }
    | none => st
  | none => st

/-- The `closeDatabase` aftermath shared by success paths and `rejectError`
(source lines 600-605). -/
def closeIfRequested (opts : JSObj) (st : ScState) : ScState :=
  if truthy (getField opts "closeDatabase") then
    (closeDBModel st (strOf (getField opts "database"))).1
  else st

/-- Whether the `createStore` call of `write` rejects: a native open fires
the upgrade on an absent store and a duplicate index name aborts it with
`ConstraintError` (see `createStoreModel`). -/
def createStoreAborts (st : ScState) (dbName storeName : String)
    (indexes : List IndexDecl) : Bool :=
  hasDupIndexName (idIndexDecl :: indexes)
    && !st.cache.contains dbName
    && !alHas ((alGet st.dbs dbName).getD []) storeName

/-- `IndexedDBUtility.write` (source lines 20-43): both validations run
synchronously before the promise executor touches any store or connection;
then `createStore` (whose `ConstraintError` rejection is caught by the
`.catch` at line 41, closing the database if requested), `getStore` and the
create/update request. -/
def writeModel (st : ScState) (storeName : String) (data : JSObj) (options : JSObj)
    (settings : Settings) (now : Int) : Except String Bool × ScState :=
  match validateOptionsWrite data options settings now with
  | Except.error e => (Except.error e, st)
  | Except.ok opts =>
    match validateDataWrite data opts with
    | Except.error e => (Except.error e, st)
    | Except.ok () =>
      let dbName := strOf (getField opts "database")
      let ix := parseIndexes (getField opts "indexes")
      let st1 := (createStoreModel st dbName storeName ix).1
      if createStoreAborts st dbName storeName ix then
        (Except.error "ConstraintError", closeIfRequested opts st1)
      else
        match getStoreModel st1 dbName storeName with
        | Except.error e => (Except.error e, closeIfRequested opts st1)
        | Except.ok recs =>
          if truthy (getField opts "update") then
            match updateDataInStoreModel recs data dbName now with
            | Except.ok recs2 =>
              (Except.ok true,
                closeIfRequested opts (pushTrace (setStoreRecs st1 dbName storeName recs2) "store.put"))
            | Except.error e => (Except.error e, st1)
          else
            let recs2 := createDataInStoreModel recs data (numVal (getField opts "expires")) now
            (Except.ok true,
              closeIfRequested opts (pushTrace (setStoreRecs st1 dbName storeName recs2) "store.add"))

/-- `deleteDatabase` (source lines 543-552): close any cached connection,
issue the native `indexedDB.deleteDatabase`, and resolve `true` right away
(the executor's final `resolve(true)` settles before the native events). -/
def deleteDatabaseModel (key : String) (st : ScState) : Except String Bool × ScState :=
  let st := (closeDBModel st key).1
  let st := pushTrace { st with dbs := alRemove st.dbs key } ("indexedDB.deleteDatabase " ++ key)
  (Except.ok true, st)

/-- `deleteStore` (source lines 576-598): require `options.database`, close
any cached connection under the *store* name, reopen the database with an
upgrade handler that removes the store when present, then resolve `true`. -/
def deleteStoreModel (key : String) (options : JSObj) (st : ScState) :
    Except String Bool × ScState :=
  if !truthy (getField options "database") then
    (Except.error "Option.database is required", st)
  else
    let dbName := strOf (getField options "database")
    let st := (closeDBModel st key).1
    let st := (openDBModel st dbName (some (fun stores =>
      if alHas stores key then alRemove stores key else stores))).1
    let st := if truthy (getField options "closeDatabase") then (closeDBModel st dbName).1 else st
    (Except.ok true, st)

/-- `deleteData` (source lines 554-574): require `options.database`,
`options.storeName` and a numeric key; open the database, get the store (a
missing store rejects), issue `store.delete(key)` and resolve `true`. -/
def deleteDataModel (key : JSVal) (options : JSObj) (st : ScState) :
    Except String Bool × ScState :=
  if !truthy (getField options "database") then
    (Except.error "In order to delete data, Option.database is required", st)
  else if !truthy (getField options "storeName") then
    (Except.error "In order to delete data, Option.storeName is required", st)
  else if typeOf key != "number" then
    (Except.error "In order to delete data, key must be the id as number", st)
  else
    let dbName := strOf (getField options "database")
    let storeName := strOf (getField options "storeName")
    let st1 := (openDBModel st dbName none).1
    match getStoreModel st1 dbName storeName with
    | Except.error e => (Except.error e, closeIfRequested options st1)
    | Except.ok recs =>
      let recs2 := recs.filter (fun r => !idbKeyEq (getField r "id") key)
      (Except.ok true, pushTrace (setStoreRecs st1 dbName storeName recs2) "store.delete")

/-- `IndexedDBUtility.delete` (source lines 119-133): key-type check,
option validation, then dispatch on `options.type`. -/
def deleteModel (key : JSVal) (options : JSObj) (settings : Settings) (st : ScState) :
    Except String Bool × ScState :=
  if typeOf key != "string" && typeOf key != "number" then
    (Except.error "Key must be a string or number", st)
  else
    match validateDeleteOptions options settings with
    | Except.error e => (Except.error e, st)
    | Except.ok opts =>
      if isStr (getField opts "type") "database" then deleteDatabaseModel (jsDisplay key) st
      else if isStr (getField opts "type") "store" then deleteStoreModel (jsDisplay key) opts st
      else deleteDataModel key opts st

/-- The type of the `deleteMethod` parameter the read functions receive
(`this.delete`, called with a key, an options object and the settings already
applied). -/
abbrev DeleteMethod := JSVal → JSObj → ScState → Except String Bool × ScState

/-- `this.delete` with the instance settings, as `read` passes it at source
lines 68-72. -/
def boundDelete (settings : Settings) : DeleteMethod :=
  fun key opts st => deleteModel key opts settings st

/-- The options object the read functions hand to the lazy delete:
`{ storeName, databaseName: options.database }` (source lines 426, 456, 497).
The database is passed under the key `databaseName`, which
`validateDeleteOptions` never reads. -/
def lazyDeleteOpts (storeName dbName : String) : JSObj :=
  [("storeName", JSVal.str storeName), ("databaseName", JSVal.str dbName)]

/-- The not-found resolution of a single-record read. -/
def readNullResult (withMeta : Bool) : JSVal :=
  if withMeta then JSVal.obj [("data", JSVal.null)] else JSVal.null

/-- `readDataByID` (source lines 448-476): `store.get(options.id)`; a found
record with `now > expires` triggers a fire-and-forget lazy delete and
resolves null/`{data: null}`; a live record resolves as the data (wrapped when
`withMeta`); an absent record resolves null/`{data: null}`. -/
def readDataByIDModel (st : ScState) (storeName : String) (options : JSObj)
    (dm : DeleteMethod) (now : Int) : Except String JSVal × ScState :=
  let dbName := strOf (getField options "database")
  let withMeta := truthy (getField options "withMeta")
  match (storeRecsD st dbName storeName).find?
      (fun r => idbKeyEq (getField r "id") (getField options "id")) with
  | some result =>
    if jsGtNum now (getField result "expires") then
      let st2 := (dm (getField result "id") (lazyDeleteOpts storeName dbName) st).2
      (Except.ok (readNullResult withMeta), st2)
    else
      (Except.ok (if withMeta then JSVal.obj [("data", JSVal.obj result)] else JSVal.obj result), st)
  | none => (Except.ok (readNullResult withMeta), st)

/-- Whether a record matches an index lookup for `nameValue`: equality on the
indexed field, or membership for a `multiEntry` index over an array field. -/
def indexMatches (decl : IndexDecl) (r : JSObj) (nameValue : JSVal) : Bool :=
  idbKeyEq (getField r decl.indexKey) nameValue ||
    (decl.multiEntry && match getField r decl.indexKey with
      | JSVal.arr xs => xs.any (fun x => idbKeyEq x nameValue)
      | _ => false)

/-- `readDataByIndexAndNameValue` (source lines 418-446):
`store.index(options.index).get(options.nameValue)`; an expired hit runs the
lazy delete and resolves null/`{data: null}` from both the `.then` and the
`.catch` branch; a missing index rejects (native `NotFoundError`). -/
def readDataByIndexAndNameValueModel (st : ScState) (storeName : String) (options : JSObj)
    (dm : DeleteMethod) (now : Int) : Except String JSVal × ScState :=
  let dbName := strOf (getField options "database")
  let withMeta := truthy (getField options "withMeta")
  match storeData? st dbName storeName with
  | none => (Except.error ("The store '" ++ storeName ++ "' in '" ++ dbName ++ "' doesn't exist"), st)
  | some sd =>
    match sd.indexes.find? (fun d => d.indexName == strOf (getField options "index")) with
    | none => (Except.error "NotFoundError: the requested index does not exist", st)
    | some decl =>
      match sd.records.find? (fun r => indexMatches decl r (getField options "nameValue")) with
      | some result =>
        if jsGtNum now (getField result "expires") then
          let st2 := (dm (getField result "id") (lazyDeleteOpts storeName dbName) st).2
          (Except.ok (readNullResult withMeta), st2)
        else
          (Except.ok (if withMeta then JSVal.obj [("data", JSVal.obj result)] else JSVal.obj result), st)
      | none => (Except.ok (readNullResult withMeta), st)

/-- The cursor walk of `readAllData` (source lines 489-509) over the records
the transaction snapshot yields, threading the state mutated by the
fire-and-forget lazy deletes.  Records with a missing or falsy `expires` are
pushed onto the result ("invalid item without expire"); expired records are
lazily deleted and skipped; live records are pushed. -/
def readAllLoop (dm : DeleteMethod) (dbName storeName : String) (now : Int) :
    List JSObj → ScState → List JSObj × ScState
  | [], st => ([], st)
  | r :: rest, st =>
    if !hasField r "expires" || !truthy (getField r "expires") then
      let (tail, st2) := readAllLoop dm dbName storeName now rest st
      (r :: tail, st2)
    else if jsGtNum now (getField r "expires") then
      let st1 := (dm (getField r "id") (lazyDeleteOpts storeName dbName) st).2
      readAllLoop dm dbName storeName now rest st1
    else
      let (tail, st2) := readAllLoop dm dbName storeName now rest st
      (r :: tail, st2)

/-- `readAllData` (source lines 477-513): full cursor scan resolving the
collected array (wrapped when `withMeta`), closing the database afterwards
when requested. -/
def readAllDataModel (st : ScState) (storeName : String) (options : JSObj)
    (dm : DeleteMethod) (now : Int) : Except String JSVal × ScState :=
  let dbName := strOf (getField options "database")
  let withMeta := truthy (getField options "withMeta")
  let out := readAllLoop dm dbName storeName now (storeRecsD st dbName storeName) st
  (Except.ok (if withMeta then JSVal.obj [("data", JSVal.arr (out.1.map JSVal.obj))]
      else JSVal.arr (out.1.map JSVal.obj)),
    closeIfRequested options out.2)

/-- `IndexedDBUtility.read` (source lines 56-77): validate, open, get the
store, then dispatch on the identifying options. -/
def readModel (st : ScState) (storeName : String) (options : JSObj)
    (settings : Settings) (now : Int) : Except String JSVal × ScState :=
  match validateOptionsRead options settings with
  | Except.error e => (Except.error e, st)
  | Except.ok opts =>
    let dbName := strOf (getField opts "database")
    let st1 := (openDBModel st dbName none).1
    match getStoreModel st1 dbName storeName with
    | Except.error e => (Except.error e, closeIfRequested opts st1)
    | Except.ok _ =>
      if truthy (getField opts "index") && truthy (getField opts "nameValue") then
        readDataByIndexAndNameValueModel st1 storeName opts (boundDelete settings) now
      else if truthy (getField opts "id") then
        readDataByIDModel st1 storeName opts (boundDelete settings) now
      else
        readAllDataModel st1 storeName opts (boundDelete settings) now

/-- Fine-grained view of `DatabaseUtility.openDB` (source lines 145-163) for
reasoning about the window between issuing `indexedDB.open` and its
`onsuccess`: the cache of `_databaseList` plus a count of native open calls
issued so far. -/
structure RegState where
  cache : List String
  nativeOpens : Nat
deriving Repr, DecidableEq

/-- The synchronous part of `openDB`: `getDB` resolves a cached connection
(no native call); on a cache miss `indexedDB.open(dbName, version)` is issued
(source line 152).  The flag reports whether a native open was issued.  The
cache is only written later, by `onsuccess`. -/
def openDBStart (s : RegState) (name : String) : RegState × Bool :=
  if s.cache.contains name then (s, false)
  else ({ s with nativeOpens := s.nativeOpens + 1 }, true)

/-- The `onsuccess` handler of `openDB` (source lines 154-157): cache the
connection under its name. -/
def openDBOnSuccess (s : RegState) (name : String) : RegState :=
  { s with cache := name :: s.cache }

/-- `closeDB` on the registry view (source lines 169-178): `some true` models
`resolve(true)` after evicting, `none` models the bare `resolve()` of the
no-op path; both are successful resolutions. -/
def closeDBReg (s : RegState) (name : String) : RegState × Option Bool :=
  if s.cache.contains name then
    ({ s with cache := s.cache.filter (fun n => n != name) }, some true)
  else (s, none)

/-- One observable event in the life of a promise-returning operation, in
program order: issuing a native request, a `resolve`/`reject` call on the
operation's promise, or the delivery of a native completion event. -/
inductive PEvent where
  | nativeIssue : String → PEvent
  | settleResolve : PEvent
  | settleReject : PEvent
  | nativeComplete : String → PEvent
deriving Repr, DecidableEq

/-- Whether an event is a settlement attempt on the operation's promise. -/
def isSettle : PEvent → Bool
  | PEvent.settleResolve => true
  | PEvent.settleReject => true
  | _ => false

/-- Whether an event is a native completion (success or error) delivery. -/
def isNativeComplete : PEvent → Bool
  | PEvent.nativeComplete _ => true
  | _ => false

/-- Number of settlement attempts in an event sequence. -/
def settleAttempts (t : List PEvent) : Nat :=
  (t.filter isSettle).length

/-- JavaScript promises are settled by the first `resolve`/`reject` only;
the promise of an operation ends settled exactly once iff at least one
settlement attempt occurs. -/
def settlesOnce (t : List PEvent) : Bool :=
  t.any isSettle

/-- Whether some settlement attempt occurs strictly before the first native
completion event is delivered. -/
def settleBeforeNativeComplete (t : List PEvent) : Bool :=
  (t.takeWhile (fun e => !isNativeComplete e)).any isSettle

/-- Event sequence of `deleteDatabase` (source lines 543-552): the executor
issues `indexedDB.deleteDatabase` (line 547) and then calls `resolve(true)`
synchronously (line 550); the native completion is delivered afterwards and
re-invokes `resolve` (line 548) or `reject` (line 549), which the
already-settled promise ignores. -/
def deleteDatabaseEvents (succeeds : Bool) : List PEvent :=
  [PEvent.nativeIssue "indexedDB.deleteDatabase", PEvent.settleResolve,
   PEvent.nativeComplete "indexedDB.deleteDatabase",
   if succeeds then PEvent.settleResolve else PEvent.settleReject]

/-- Event sequence of the success path of `deleteData` (source lines 565-571):
once the store is obtained, `store.delete(key)` is issued and `resolve(true)`
runs in the same callback, before the delete request's completion event. -/
def deleteDataEvents : List PEvent :=
  [PEvent.nativeIssue "store.delete", PEvent.settleResolve,
   PEvent.nativeComplete "store.delete"]

/-- Event sequence of `createDataInStore` (source lines 362-384): `store.add`
is issued; settlement happens only inside `req.onsuccess`/`req.onerror`,
i.e. in response to the native completion event. -/
def createDataInStoreEvents (succeeds : Bool) : List PEvent :=
  [PEvent.nativeIssue "store.add", PEvent.nativeComplete "store.add",
   if succeeds then PEvent.settleResolve else PEvent.settleReject]

/-- Event sequence of `updateDataInStore`'s put path (source lines 340-355):
`store.put` is issued and settlement happens only in its completion
handlers. -/
def updateDataInStoreEvents (succeeds : Bool) : List PEvent :=
  [PEvent.nativeIssue "store.put", PEvent.nativeComplete "store.put",
   if succeeds then PEvent.settleResolve else PEvent.settleReject]

theorem alFind_none {α : Type} {l : List (String × α)} {k : String}
    (h : alHas l k = false) : l.find? (fun p => p.1 == k) = none := by
  induction l with
  | nil => rfl
  | cons a t ih =>
    simp only [alHas, List.any_cons, Bool.or_eq_false_iff] at h
    rw [List.find?_cons_of_neg _ (by simp [h.1]), ih (by simp [alHas, h.2])]

/-- Whether an `Except` result is an error (a thrown/rejected call). -/
def isErr {α : Type} (e : Except String α) : Bool :=
  match e with
  | Except.error _ => true
  | Except.ok _ => false

/-- A concrete configuration used by closed witnesses and counterexamples. -/
def sampleSettings : Settings :=
  { INDEXEDDB_DATABASE := "default", LIFETIME := 1,
    INDEXEDDB_CLOSE_AFTER_REQUEST := false, AS_OBJECT := false }

/-- Source line 269-271: default `options.expires` from the configured
lifetime. -/
def vowS1 (o : JSObj) (settings : Settings) (now : Int) : JSObj :=
  if !truthy (getField o "expires") then
    setField o "expires" (JSVal.date (now + settings.LIFETIME))
  else o

/-- Source line 272: the `expires` type check. -/
def vowT1 (o : JSObj) : Bool :=
  !instanceofDate (getField o "expires") && typeOf (getField o "expires") != "number"

/-- Source line 275-277: convert a numeric `expires` to a date from now. -/
def vowS2 (o : JSObj) (now : Int) : JSObj :=
  if truthy (getField o "expires") && typeOf (getField o "expires") == "number" then
    setField o "expires" (JSVal.date (now + numVal (getField o "expires")))
  else o

/-- Source line 278: the `update` type check. -/
def vowT2 (o : JSObj) : Bool :=
  truthy (getField o "update") && typeOf (getField o "update") != "boolean"

/-- Source line 281-283: default `update` to `false`. -/
def vowS3 (o : JSObj) : JSObj :=
  if typeOf (getField o "update") != "boolean" then setField o "update" (JSVal.boolean false)
  else o

/-- Source line 284: the `database` type check. -/
def vowT3 (o : JSObj) : Bool :=
  truthy (getField o "database") && typeOf (getField o "database") != "string"

/-- Source line 287-289: default `database` from the settings. -/
def vowS4 (o : JSObj) (settings : Settings) : JSObj :=
  if !truthy (getField o "database") then
    setField o "database" (JSVal.str settings.INDEXEDDB_DATABASE)
  else o

/-- Source line 290: the `closeDatabase` type check. -/
def vowT4 (o : JSObj) : Bool :=
  truthy (getField o "closeDatabase") && typeOf (getField o "closeDatabase") != "boolean"

/-- Source line 293-295: default `closeDatabase` from the settings. -/
def vowS5 (o : JSObj) (settings : Settings) : JSObj :=
  if typeOf (getField o "closeDatabase") != "boolean" then
    setField o "closeDatabase" (JSVal.boolean settings.INDEXEDDB_CLOSE_AFTER_REQUEST)
  else o

/-- Source line 296: an update call must carry a numeric `data.id`. -/
def vowT5 (data o : JSObj) : Bool :=
  truthy (getField o "update") && (!hasField data "id" || typeOf (getField data "id") != "number")

/-- Source lines 299-301: the `indexes` shape check. -/
def vowT6 (o : JSObj) : Bool :=
  truthy (getField o "indexes") &&
    (!isArray (getField o "indexes") || firstIndexMalformed (getField o "indexes"))

/-- The normalized options after all defaulting stages. -/
def vowChain (options : JSObj) (settings : Settings) (now : Int) : JSObj :=
  vowS5 (vowS4 (vowS3 (vowS2 (vowS1 options settings now) now)) settings) settings

/-- `validateOptionsWrite` written as its defaulting stages and checks. -/
def vowStaged (data options : JSObj) (settings : Settings) (now : Int) : Except String JSObj := do
  let o1 := vowS1 options settings now
  if vowT1 o1 then throw "Expires can only be a number or a date object"
  let o2 := vowS2 o1 now
  if vowT2 o2 then throw "Option.update must be a boolean"
  let o3 := vowS3 o2
  if vowT3 o3 then throw "Option.database must be a string"
  let o4 := vowS4 o3 settings
  if vowT4 o4 then throw "Option.closeDatabase must be a boolean"
  let o5 := vowS5 o4 settings
  if vowT5 data o5 then
    throw "In order to update the data, you have to provide an id as number in your data object."
  if vowT6 o5 then
    throw "The Array 'indexes' in option does not meet the requirements."
  return o5

/-- A truthy non-array `indexes` value whose property `"0"` is a well-formed
index declaration. -/
def c10BadIndexes : JSVal :=
  JSVal.obj [("0", JSVal.obj [("indexName", JSVal.str "todo"), ("indexKey", JSVal.str "todo"),
    ("indexOptions", JSVal.obj [("unqiue", JSVal.boolean false),
      ("multiEntry", JSVal.boolean true)])])]

/-- A well-formed index declaration (note the required `unqiue` spelling). -/
def c10GoodIndex : JSVal :=
  JSVal.obj [("indexName", JSVal.str "todo"), ("indexKey", JSVal.str "todo"),
    ("indexOptions", JSVal.obj [("unqiue", JSVal.boolean false),
      ("multiEntry", JSVal.boolean true)])]

/-- The options literal `{update: true, expires: new Date(d)}` used to state
the update-path theorems. -/
def updOptions (d : Int) : JSObj :=
  [("update", JSVal.boolean true), ("expires", JSVal.date d)]

/-- `updOptions` after `validateOptionsWrite` normalization. -/
def updChain (settings : Settings) (d : Int) : JSObj :=
  [("update", JSVal.boolean true), ("expires", JSVal.date d),
   ("database", JSVal.str settings.INDEXEDDB_DATABASE),
   ("closeDatabase", JSVal.boolean settings.INDEXEDDB_CLOSE_AFTER_REQUEST)]

/-- A concrete empty `todos` store used by closed witnesses. -/
def sampleStore : StoreData :=
  { keyPath := "id", autoIncrement := true, indexes := [idIndexDecl], records := [] }

/-- A concrete state holding the database `default` with the empty store
`todos`, no cached connection and an empty native-request log. -/
def sampleState : ScState :=
  { dbs := [("default", [("todos", sampleStore)])], cache := [], trace := [] }

/-- The envelope `store.put` writes on update (source line 342):
`{...data, expires: existing.expires, createdAt: existing.createdAt,
updatedAt: now}`. -/
def updatedEnvelope (data existing : JSObj) (now : Int) : JSObj :=
  setField (setField (setField data "expires" (getField existing "expires"))
    "createdAt" (getField existing "createdAt")) "updatedAt" (JSVal.num now)

/-- A concrete stored record with id 1 and expiry 100. -/
def c2Record : JSObj :=
  [("id", JSVal.num 1), ("v", JSVal.str "old"), ("expires", JSVal.num 100),
   ("createdAt", JSVal.num 10), ("updatedAt", JSVal.num 10)]

/-- A concrete `todos` store holding `c2Record`. -/
def c2Store : StoreData :=
  { keyPath := "id", autoIncrement := true, indexes := [idIndexDecl], records := [c2Record] }

/-- A concrete state holding `c2Store` in the database `default`. -/
def c2State : ScState :=
  { dbs := [("default", [("todos", c2Store)])], cache := [], trace := [] }

/-- Source line 516: the `storeName` type check of `validateDeleteOptions`. -/
def vdoT0 (o : JSObj) : Bool :=
  truthy (getField o "storeName") && typeOf (getField o "storeName") != "string"

/-- Source lines 519-521: default `type` to `"data"`. -/
def vdoS1 (o : JSObj) : JSObj :=
  if typeOf (getField o "type") != "string" then setField o "type" (JSVal.str "data") else o

/-- Source lines 522-525: the `type` enumeration check. -/
def vdoT1 (o : JSObj) : Bool :=
  !isStr (getField o "type") "data" && !isStr (getField o "type") "database" &&
    !isStr (getField o "type") "store"

/-- Source line 527: the `database` type check. -/
def vdoT2 (o : JSObj) : Bool :=
  truthy (getField o "database") && typeOf (getField o "database") != "string"

/-- Source lines 530-532: default `database` from the settings. -/
def vdoS2 (o : JSObj) (settings : Settings) : JSObj :=
  if !truthy (getField o "database") then
    setField o "database" (JSVal.str settings.INDEXEDDB_DATABASE)
  else o

/-- Source line 533: the `closeDatabase` type check. -/
def vdoT3 (o : JSObj) : Bool :=
  truthy (getField o "closeDatabase") && typeOf (getField o "closeDatabase") != "boolean"

/-- Source lines 536-538: default `closeDatabase` from the settings. -/
def vdoS3 (o : JSObj) (settings : Settings) : JSObj :=
  if typeOf (getField o "closeDatabase") != "boolean" then
    setField o "closeDatabase" (JSVal.boolean settings.INDEXEDDB_CLOSE_AFTER_REQUEST)
  else o

/-- The normalized delete options after all defaulting stages. -/
def vdoChain (o : JSObj) (settings : Settings) : JSObj :=
  vdoS3 (vdoS2 (vdoS1 o) settings) settings

/-- `validateDeleteOptions` written as its defaulting stages and checks. -/
def vdoStaged (options : JSObj) (settings : Settings) : Except String JSObj := do
  if vdoT0 options then throw "Option.storeName must be a string"
  let o1 := vdoS1 options
  if vdoT1 o1 then throw "Option.type must be \"database\", \"data\" or \"store\""
  if vdoT2 o1 then throw "Option.database must be a string"
  let o2 := vdoS2 o1 settings
  if vdoT3 o2 then throw "Option.closeDatabase must be a boolean"
  return vdoS3 o2 settings

/-- The options of the lazy delete after normalization: `type` defaults to
`"data"` and `database` to the configured default — the `databaseName` field
carrying the read's database is ignored. -/
def lazyChain (sn dn : String) (settings : Settings) : JSObj :=
  [("storeName", JSVal.str sn), ("databaseName", JSVal.str dn),
   ("type", JSVal.str "data"), ("database", JSVal.str settings.INDEXEDDB_DATABASE),
   ("closeDatabase", JSVal.boolean settings.INDEXEDDB_CLOSE_AFTER_REQUEST)]

/-- A record whose `expires` is the falsy timestamp 0. -/
def c1ZeroRecord : JSObj := [("id", JSVal.num 1), ("expires", JSVal.num 0)]

/-- A state whose store `s` (database `default`) holds only `c1ZeroRecord`. -/
def c1ZeroState : ScState :=
  { dbs := [("default", [("s",
      { keyPath := "id", autoIncrement := true, indexes := [idIndexDecl],
        records := [c1ZeroRecord] })])],
    cache := [], trace := [] }

/-- A record with id 2 expired at epoch-ms 10. -/
def c1WitRecord : JSObj := [("id", JSVal.num 2), ("expires", JSVal.num 10)]

/-- A state whose store `todos` (database `default`) holds only
`c1WitRecord`. -/
def c1WitState : ScState :=
  { dbs := [("default", [("todos",
      { keyPath := "id", autoIncrement := true, indexes := [idIndexDecl],
        records := [c1WitRecord] })])],
    cache := [], trace := [] }

/-- Validated read options: default database, lookup of id 2. -/
def c1WitOptions : JSObj := [("database", JSVal.str "default"), ("id", JSVal.num 2)]

/-- A state where the database `default` exists (with no stores) and a
connection to it is already cached. -/
def c5State : ScState :=
  { dbs := [("default", [])], cache := ["default"], trace := [] }

/-- The delete options `\x7bstoreName: 'todos'\x7d` after
`validateDeleteOptions` defaulting against `sampleSettings`. -/
def c7Opts : JSObj :=
  [("storeName", JSVal.str "todos"), ("type", JSVal.str "data"),
   ("database", JSVal.str "default"), ("closeDatabase", JSVal.boolean false)]

-- THEOREMS: everything below states and proves properties of the model above.

theorem find_cons_pos {α : Type} (f : α → Bool) (a : α) (l : List α) (h : f a = true) :
    List.find? f (a :: l) = some a := by
  simp only [List.find?]
  rw [h]

theorem find_cons_neg {α : Type} (f : α → Bool) (a : α) (l : List α) (h : f a = false) :
    List.find? f (a :: l) = List.find? f l := by
  simp only [List.find?]
  rw [h]

theorem beqFalseOfNeRev {k k' : String} (hne : k' ≠ k) : (k == k') = false := by
  cases hx : (k == k')
  · rfl
  · exact absurd (eq_of_beq hx).symm hne

theorem alGet_map_set_self {α : Type} {l : List (String × α)} {k : String} {v : α}
    (h : alHas l k = true) :
    alGet (l.map (fun p => if p.1 == k then (k, v) else p)) k = some v := by
  induction l with
  | nil => simp [alHas] at h
  | cons a t ih =>
    rw [List.map_cons]
    cases hak : (a.1 == k) with
    | true =>
      rw [if_pos rfl]
      unfold alGet
      rw [find_cons_pos (fun q => q.1 == k) ((k, v)) _ (beq_self_eq_true k)]
      rfl
    | false =>
      rw [if_neg Bool.false_ne_true]
      have ht : alHas t k = true := by
        have h2 := h
        simp only [alHas, List.any_cons] at h2
        rcases Bool.or_eq_true_iff.mp h2 with h1 | h1
        · rw [hak] at h1
          exact absurd h1 Bool.false_ne_true
        · exact h1
      unfold alGet
      rw [find_cons_neg (fun q => q.1 == k) a _ hak]
      exact ih ht

theorem alGet_append_single_self {α : Type} {l : List (String × α)} {k : String} {v : α}
    (h : alHas l k = false) : alGet (l ++ [(k, v)]) k = some v := by
  induction l with
  | nil =>
    unfold alGet
    rw [List.nil_append, find_cons_pos (fun q => q.1 == k) ((k, v)) _ (beq_self_eq_true k)]
    rfl
  | cons a t ih =>
    simp only [alHas, List.any_cons, Bool.or_eq_false_iff] at h
    rw [List.cons_append]
    unfold alGet
    rw [find_cons_neg (fun q => q.1 == k) a _ h.1]
    exact ih (by simpa [alHas] using h.2)

theorem alGet_alSet_self {α : Type} (l : List (String × α)) (k : String) (v : α) :
    alGet (alSet l k v) k = some v := by
  unfold alSet
  by_cases h : alHas l k
  · simp only [h, if_true]
    exact alGet_map_set_self h
  · simp only [Bool.not_eq_true] at h
    simp only [h, Bool.false_eq_true, if_false]
    exact alGet_append_single_self h

theorem alGet_map_set_ne {α : Type} (l : List (String × α)) (k k' : String) (v : α)
    (hne : k' ≠ k) :
    alGet (l.map (fun p => if p.1 == k then (k, v) else p)) k' = alGet l k' := by
  induction l with
  | nil => rfl
  | cons a t ih =>
    rw [List.map_cons]
    cases hak : (a.1 == k) with
    | true =>
      have ha : a.1 = k := eq_of_beq hak
      rw [if_pos rfl]
      have hak' : (a.1 == k') = false := by
        rw [ha]
        exact beqFalseOfNeRev hne
      unfold alGet
      rw [find_cons_neg (fun q => q.1 == k') ((k, v)) _ (beqFalseOfNeRev hne),
        find_cons_neg (fun q => q.1 == k') a _ hak']
      exact ih
    | false =>
      rw [if_neg Bool.false_ne_true]
      cases hak' : (a.1 == k') with
      | true =>
        unfold alGet
        rw [find_cons_pos (fun q => q.1 == k') a _ hak', find_cons_pos (fun q => q.1 == k') a _ hak']
      | false =>
        unfold alGet
        rw [find_cons_neg (fun q => q.1 == k') a _ hak', find_cons_neg (fun q => q.1 == k') a _ hak']
        exact ih

theorem alGet_append_single_ne {α : Type} (l : List (String × α)) (k k' : String) (v : α)
    (hne : k' ≠ k) : alGet (l ++ [(k, v)]) k' = alGet l k' := by
  induction l with
  | nil =>
    unfold alGet
    rw [List.nil_append, find_cons_neg (fun q => q.1 == k') ((k, v)) _ (beqFalseOfNeRev hne)]
  | cons a t ih =>
    rw [List.cons_append]
    cases hak' : (a.1 == k') with
    | true =>
      unfold alGet
      rw [find_cons_pos (fun q => q.1 == k') a _ hak', find_cons_pos (fun q => q.1 == k') a _ hak']
    | false =>
      unfold alGet
      rw [find_cons_neg (fun q => q.1 == k') a _ hak', find_cons_neg (fun q => q.1 == k') a _ hak']
      exact ih

theorem alGet_alSet_ne {α : Type} (l : List (String × α)) (k k' : String) (v : α)
    (hne : k' ≠ k) : alGet (alSet l k v) k' = alGet l k' := by
  unfold alSet
  by_cases h : alHas l k
  · simp only [h, if_true]
    exact alGet_map_set_ne l k k' v hne
  · simp only [Bool.not_eq_true] at h
    simp only [h, Bool.false_eq_true, if_false]
    exact alGet_append_single_ne l k k' v hne

theorem alGet_alRemove_self {α : Type} (l : List (String × α)) (k : String) :
    alGet (alRemove l k) k = none := by
  induction l with
  | nil => rfl
  | cons a t ih =>
    unfold alRemove
    rw [List.filter_cons]
    cases hak : (a.1 == k) with
    | true =>
      have hb : (a.1 != k) = false := by simp [bne, hak]
      rw [hb]
      simp only [Bool.false_eq_true, if_false]
      exact ih
    | false =>
      have hb : (a.1 != k) = true := by simp [bne, hak]
      rw [hb, if_pos rfl]
      unfold alGet
      rw [find_cons_neg (fun q => q.1 == k) a _ hak]
      exact ih

theorem alGet_alRemove_ne {α : Type} (l : List (String × α)) (k k' : String)
    (hne : k' ≠ k) : alGet (alRemove l k) k' = alGet l k' := by
  induction l with
  | nil => rfl
  | cons a t ih =>
    unfold alRemove
    rw [List.filter_cons]
    cases hak : (a.1 == k) with
    | true =>
      have ha : a.1 = k := eq_of_beq hak
      have hb : (a.1 != k) = false := by simp [bne, hak]
      rw [hb]
      simp only [Bool.false_eq_true, if_false]
      have hak' : (a.1 == k') = false := by
        rw [ha]
        exact beqFalseOfNeRev hne
      have hend : alGet (a :: t) k' = alGet t k' := by
        unfold alGet
        rw [find_cons_neg (fun q => q.1 == k') a _ hak']
      rw [hend]
      exact ih
    | false =>
      have hb : (a.1 != k) = true := by simp [bne, hak]
      rw [hb, if_pos rfl]
      cases hak' : (a.1 == k') with
      | true =>
        unfold alGet
        rw [find_cons_pos (fun q => q.1 == k') a _ hak', find_cons_pos (fun q => q.1 == k') a _ hak']
      | false =>
        unfold alGet
        rw [find_cons_neg (fun q => q.1 == k') a _ hak', find_cons_neg (fun q => q.1 == k') a _ hak']
        exact ih

theorem alGet_none_of_not_alHas {α : Type} {l : List (String × α)} {k : String}
    (h : alHas l k = false) : alGet l k = none := by
  simp [alGet, alFind_none h]

theorem hasField_eq_alHas (o : JSObj) (k : String) : hasField o k = alHas o k := rfl

theorem setField_eq_alSet (o : JSObj) (k : String) (v : JSVal) :
    setField o k v = alSet o k v := rfl

theorem getField_eq_alGet (o : JSObj) (k : String) :
    getField o k = (alGet o k).getD JSVal.undef := by
  unfold getField alGet
  cases h : o.find? (fun p => p.1 == k) <;> simp [h]

theorem getField_setField_self (o : JSObj) (k : String) (v : JSVal) :
    getField (setField o k v) k = v := by
  rw [setField_eq_alSet, getField_eq_alGet, alGet_alSet_self]
  rfl

theorem getField_setField_ne (o : JSObj) (k k' : String) (v : JSVal) (hne : k' ≠ k) :
    getField (setField o k v) k' = getField o k' := by
  rw [setField_eq_alSet, getField_eq_alGet, alGet_alSet_ne _ _ _ _ hne, getField_eq_alGet]

theorem getField_undef_of_not_hasField {o : JSObj} {k : String}
    (h : hasField o k = false) : getField o k = JSVal.undef := by
  rw [getField_eq_alGet, alGet_none_of_not_alHas (hasField_eq_alHas o k ▸ h)]
  rfl

set_option maxHeartbeats 2000000 in
theorem c10_eval (settings : Settings) (now : Int) (ix : JSVal) :
    validateOptionsWrite [] [("indexes", ix)] settings now =
      if truthy ix && (!isArray ix || firstIndexMalformed ix) then
        Except.error "The Array 'indexes' in option does not meet the requirements."
      else Except.ok [("indexes", ix), ("expires", JSVal.date (now + settings.LIFETIME)),
        ("update", JSVal.boolean false), ("database", JSVal.str settings.INDEXEDDB_DATABASE),
        ("closeDatabase", JSVal.boolean settings.INDEXEDDB_CLOSE_AFTER_REQUEST)] := rfl

theorem vow_eq (data options : JSObj) (settings : Settings) (now : Int) :
    validateOptionsWrite data options settings now = vowStaged data options settings now := rfl

theorem getField_vowS1_ne (o : JSObj) (settings : Settings) (now : Int) (k : String)
    (h : k ≠ "expires") : getField (vowS1 o settings now) k = getField o k := by
  unfold vowS1
  split
  · exact getField_setField_ne o "expires" k _ h
  · rfl

theorem getField_vowS2_ne (o : JSObj) (now : Int) (k : String)
    (h : k ≠ "expires") : getField (vowS2 o now) k = getField o k := by
  unfold vowS2
  split
  · exact getField_setField_ne o "expires" k _ h
  · rfl

theorem getField_vowS3_ne (o : JSObj) (k : String)
    (h : k ≠ "update") : getField (vowS3 o) k = getField o k := by
  unfold vowS3
  split
  · exact getField_setField_ne o "update" k _ h
  · rfl

theorem getField_vowS4_ne (o : JSObj) (settings : Settings) (k : String)
    (h : k ≠ "database") : getField (vowS4 o settings) k = getField o k := by
  unfold vowS4
  split
  · exact getField_setField_ne o "database" k _ h
  · rfl

theorem getField_vowS5_ne (o : JSObj) (settings : Settings) (k : String)
    (h : k ≠ "closeDatabase") : getField (vowS5 o settings) k = getField o k := by
  unfold vowS5
  split
  · exact getField_setField_ne o "closeDatabase" k _ h
  · rfl

theorem getField_vowS3_update (o : JSObj) :
    getField (vowS3 o) "update" =
      (if typeOf (getField o "update") != "boolean" then JSVal.boolean false
       else getField o "update") := by
  unfold vowS3
  split
  · rw [getField_setField_self]
  · rfl

theorem getField_vowS4_database (o : JSObj) (settings : Settings) :
    getField (vowS4 o settings) "database" =
      (if !truthy (getField o "database") then JSVal.str settings.INDEXEDDB_DATABASE
       else getField o "database") := by
  unfold vowS4
  split
  · rw [getField_setField_self]
  · rfl

theorem getField_vowChain_update (options : JSObj) (settings : Settings) (now : Int) :
    getField (vowChain options settings now) "update" =
      (if typeOf (getField options "update") != "boolean" then JSVal.boolean false
       else getField options "update") := by
  unfold vowChain
  rw [getField_vowS5_ne _ _ _ (by decide), getField_vowS4_ne _ _ _ (by decide),
    getField_vowS3_update, getField_vowS2_ne _ _ _ (by decide),
    getField_vowS1_ne _ _ _ _ (by decide)]

theorem throwBindEq {α β : Type} (e : String) (k : α → Except String β) :
    ((throw e : Except String α) >>= k) = Except.error e := rfl

theorem mapThrowEq {α β : Type} (e : String) (f : α → β) :
    (f <$> (throw e : Except String α)) = Except.error e := rfl

/-- A successful `validateOptionsWrite` returns the staged normal form, with
the update-id check and the indexes check both passing. -/
theorem vow_ok_shape {data options : JSObj} {settings : Settings} {now : Int} {opts : JSObj}
    (h : validateOptionsWrite data options settings now = Except.ok opts) :
    opts = vowChain options settings now ∧ vowT5 data opts = false ∧ vowT6 opts = false := by
  rw [vow_eq] at h
  unfold vowStaged at h
  cases t1 : vowT1 (vowS1 options settings now) with
  | true => simp [t1, throwBindEq, mapThrowEq] at h
  | false =>
    simp only [t1] at h
    cases t2 : vowT2 (vowS2 (vowS1 options settings now) now) with
    | true => simp [t2, throwBindEq, mapThrowEq] at h
    | false =>
      simp only [t2] at h
      cases t3 : vowT3 (vowS3 (vowS2 (vowS1 options settings now) now)) with
      | true => simp [t3, throwBindEq, mapThrowEq] at h
      | false =>
        simp only [t3] at h
        cases t4 : vowT4 (vowS4 (vowS3 (vowS2 (vowS1 options settings now) now)) settings) with
        | true => simp [t4, throwBindEq, mapThrowEq] at h
        | false =>
          simp only [t4] at h
          cases t5 : vowT5 data
              (vowS5 (vowS4 (vowS3 (vowS2 (vowS1 options settings now) now)) settings) settings) with
          | true => simp [t5, throwBindEq, mapThrowEq] at h
          | false =>
            simp only [t5] at h
            cases t6 : vowT6
                (vowS5 (vowS4 (vowS3 (vowS2 (vowS1 options settings now) now)) settings)
                  settings) with
            | true => simp [t6, throwBindEq, mapThrowEq] at h
            | false =>
              simp only [t6] at h
              simp only [Bool.false_eq_true, if_false, pure_bind] at h
              have ho : opts = vowChain options settings now := by
                have h2 : (Except.ok
                    (vowS5 (vowS4 (vowS3 (vowS2 (vowS1 options settings now) now)) settings)
                      settings) : Except String JSObj) = Except.ok opts := h
                cases h2
                rfl
              refine ⟨ho, ?_, ?_⟩
              · rw [ho]
                exact t5
              · rw [ho]
                exact t6

theorem alHas_of_alGet {α : Type} {l : List (String × α)} {k : String} {v : α}
    (h : alGet l k = some v) : alHas l k = true := by
  unfold alGet at h
  cases hf : l.find? (fun p => p.1 == k) with
  | none => rw [hf] at h; simp at h
  | some p =>
    have hp := List.find?_some hf
    have hm := List.mem_of_find?_eq_some hf
    unfold alHas
    rw [List.any_eq_true]
    exact ⟨p, hm, hp⟩

theorem vow_ok_update_not_truthy {data options : JSObj} {settings : Settings} {now : Int}
    {opts : JSObj} (h : validateOptionsWrite data options settings now = Except.ok opts)
    (hu : truthy (getField options "update") = false) :
    truthy (getField opts "update") = false := by
  obtain ⟨ho, -, -⟩ := vow_ok_shape h
  rw [ho, getField_vowChain_update]
  split
  · rfl
  · exact hu

theorem vow_ok_update_true {data options : JSObj} {settings : Settings} {now : Int}
    {opts : JSObj} (h : validateOptionsWrite data options settings now = Except.ok opts)
    (hu : getField options "update" = JSVal.boolean true) :
    hasField data "id" = true ∧ typeOf (getField data "id") = "number" := by
  obtain ⟨ho, h5, -⟩ := vow_ok_shape h
  have hupd : getField opts "update" = JSVal.boolean true := by
    rw [ho, getField_vowChain_update, hu]
    rfl
  unfold vowT5 at h5
  rw [hupd] at h5
  simp only [truthy, Bool.true_and, Bool.or_eq_false_iff, Bool.not_eq_true'] at h5
  obtain ⟨hid, hnum⟩ := h5
  refine ⟨by simpa using hid, by simpa using hnum⟩

theorem vdw_ok_shape {data opts : JSObj}
    (h : validateDataWrite data opts = Except.ok ()) :
    hasField data "expires" = false ∧ hasField data "createdAt" = false ∧
    (truthy (getField opts "update") = true ∨ hasField data "id" = false) ∧
    hasField data "updatedAt" = false := by
  unfold validateDataWrite at h
  cases c1 : hasField data "expires" with
  | true => simp [c1, throwBindEq, mapThrowEq] at h
  | false =>
    simp only [c1] at h
    cases c2 : hasField data "createdAt" with
    | true => simp [c2, throwBindEq, mapThrowEq] at h
    | false =>
      simp only [c2] at h
      cases c3 : (!truthy (getField opts "update") && hasField data "id") with
      | true => simp [c3, throwBindEq, mapThrowEq] at h
      | false =>
        simp only [c3] at h
        cases c4 : hasField data "updatedAt" with
        | true => simp [c4, throwBindEq, mapThrowEq] at h
        | false =>
          refine ⟨rfl, rfl, ?_, rfl⟩
          cases ht : truthy (getField opts "update") with
          | true => exact Or.inl rfl
          | false =>
            rw [ht] at c3
            simp only [Bool.not_false, Bool.true_and] at c3
            exact Or.inr c3

theorem writeModel_vow_err {st : ScState} {sn : String} {data options : JSObj}
    {settings : Settings} {now : Int} {e : String}
    (h : validateOptionsWrite data options settings now = Except.error e) :
    writeModel st sn data options settings now = (Except.error e, st) := by
  unfold writeModel
  rw [h]

theorem writeModel_vdw_err {st : ScState} {sn : String} {data options opts : JSObj}
    {settings : Settings} {now : Int} {e : String}
    (hv : validateOptionsWrite data options settings now = Except.ok opts)
    (hw : validateDataWrite data opts = Except.error e) :
    writeModel st sn data options settings now = (Except.error e, st) := by
  unfold writeModel
  rw [hv]
  dsimp only
  rw [hw]

/-- C10 (amended): `validateOptionsWrite` throws on `options.indexes` iff
`indexes` is truthy and is either not an array or has a malformed first
element (a string `indexName`, a string `indexKey`, and booleans
`indexOptions.unqiue` — the misspelled key — and `indexOptions.multiEntry`
are required of `indexes[0]` only); every element after the first is accepted
with no checks at all. -/
theorem c10_indexes_first_element_only :
    (∀ (settings : Settings) (now : Int) (ix : JSVal),
      isErr (validateOptionsWrite [] [("indexes", ix)] settings now) = true ↔
        (truthy ix = true ∧ (isArray ix = false ∨ firstIndexMalformed ix = true)))
    ∧ (∀ (settings : Settings) (now : Int) (e0 : JSVal) (rest : List JSVal),
        firstIndexMalformed (JSVal.arr (e0 :: rest)) = false →
        isErr (validateOptionsWrite [] [("indexes", JSVal.arr (e0 :: rest))] settings now)
          = false) := by
  constructor
  · intro settings now ix
    rw [c10_eval]
    cases ht : truthy ix with
    | false => simp [ht, isErr]
    | true =>
      cases ha : isArray ix with
      | false => simp [ht, ha, isErr]
      | true =>
        cases hm : firstIndexMalformed ix with
        | false => simp [ht, ha, hm, isErr]
        | true => simp [ht, ha, hm, isErr]
  · intro settings now e0 rest h
    rw [c10_eval]
    simp [truthy, isArray, h, isErr]

set_option maxHeartbeats 2000000 in
/-- C10 counterexample: a truthy non-array `indexes` object whose `[0]`
property is a fully well-formed declaration still throws, refuting the
claim's "throws if and only if ... indexes[0] lacks ..." reading. -/
theorem c10_counterexample :
    truthy c10BadIndexes = true ∧ isArray c10BadIndexes = false ∧
    firstIndexMalformed c10BadIndexes = false ∧
    isErr (validateOptionsWrite [] [("indexes", c10BadIndexes)] sampleSettings 0) = true :=
  ⟨rfl, rfl, rfl, rfl⟩

set_option maxHeartbeats 2000000 in
/-- C10 witness: a two-element indexes array whose second element is a bare
number is accepted, because only the first element is checked. -/
theorem c10_witness :
    firstIndexMalformed (JSVal.arr [c10GoodIndex, JSVal.num 7]) = false ∧
    isErr (validateOptionsWrite []
      [("indexes", JSVal.arr [c10GoodIndex, JSVal.num 7])] sampleSettings 0) = false :=
  ⟨rfl, c10_indexes_first_element_only.2 sampleSettings 0 c10GoodIndex [JSVal.num 7] rfl⟩

/-- C4: a write whose data carries a reserved field (`expires`, `createdAt`,
`updatedAt`, or `id` without a truthy `options.update`) or whose options fail
validation returns the thrown error with the state — databases, connection
cache and native-request log — exactly unchanged: validation runs before any
connection, store or native request. -/
theorem c4_write_validation_before_effects
    (st : ScState) (storeName : String) (data options : JSObj) (settings : Settings) (now : Int)
    (h : hasField data "expires" = true ∨ hasField data "createdAt" = true ∨
      hasField data "updatedAt" = true ∨
      (hasField data "id" = true ∧ truthy (getField options "update") = false) ∨
      isErr (validateOptionsWrite data options settings now) = true) :
    isErr (writeModel st storeName data options settings now).1 = true ∧
      (writeModel st storeName data options settings now).2 = st := by
  cases hv : validateOptionsWrite data options settings now with
  | error e =>
    rw [writeModel_vow_err hv]
    exact ⟨rfl, rfl⟩
  | ok opts =>
    cases hw : validateDataWrite data opts with
    | error e =>
      rw [writeModel_vdw_err hv hw]
      exact ⟨rfl, rfl⟩
    | ok u =>
      exfalso
      cases u
      obtain ⟨s1, s2, s3, s4⟩ := vdw_ok_shape hw
      rcases h with h | h | h | ⟨hid, hupd⟩ | h
      · simp [h] at s1
      · simp [h] at s2
      · simp [h] at s4
      · rcases s3 with s3 | s3
        · have hnt := vow_ok_update_not_truthy hv hupd
          simp [hnt] at s3
        · simp [hid] at s3
      · rw [hv] at h
        simp [isErr] at h

/-- C4 witness: writing a data object that carries `expires` fails with the
state untouched. -/
theorem c4_witness :
    (hasField [("expires", JSVal.num 1)] "expires" = true ∨
      hasField [("expires", JSVal.num 1)] "createdAt" = true ∨
      hasField [("expires", JSVal.num 1)] "updatedAt" = true ∨
      (hasField [("expires", JSVal.num 1)] "id" = true ∧
        truthy (getField ([] : JSObj) "update") = false) ∨
      isErr (validateOptionsWrite [("expires", JSVal.num 1)] [] sampleSettings 0) = true) ∧
    (isErr (writeModel ⟨[], [], []⟩ "todos" [("expires", JSVal.num 1)] [] sampleSettings 0).1
        = true ∧
      (writeModel ⟨[], [], []⟩ "todos" [("expires", JSVal.num 1)] [] sampleSettings 0).2
        = ⟨[], [], []⟩) :=
  ⟨Or.inl rfl,
    c4_write_validation_before_effects ⟨[], [], []⟩ "todos" [("expires", JSVal.num 1)] []
      sampleSettings 0 (Or.inl rfl)⟩

theorem vow_eval_ok {data options : JSObj} {settings : Settings} {now : Int}
    (t1 : vowT1 (vowS1 options settings now) = false)
    (t2 : vowT2 (vowS2 (vowS1 options settings now) now) = false)
    (t3 : vowT3 (vowS3 (vowS2 (vowS1 options settings now) now)) = false)
    (t4 : vowT4 (vowS4 (vowS3 (vowS2 (vowS1 options settings now) now)) settings) = false)
    (t5 : vowT5 data (vowChain options settings now) = false)
    (t6 : vowT6 (vowChain options settings now) = false) :
    validateOptionsWrite data options settings now =
      Except.ok (vowChain options settings now) := by
  rw [vow_eq]
  unfold vowStaged
  have t5x : vowT5 data
      (vowS5 (vowS4 (vowS3 (vowS2 (vowS1 options settings now) now)) settings) settings)
      = false := t5
  have t6x : vowT6
      (vowS5 (vowS4 (vowS3 (vowS2 (vowS1 options settings now) now)) settings) settings)
      = false := t6
  simp only [t1, t2, t3, t4, t5x, t6x, Bool.false_eq_true, if_false, pure_bind]
  rfl

theorem createStore_exists {st : ScState} {d sn : String}
    {stores : List (String × StoreData)} (ix : List IndexDecl)
    (hd : alGet st.dbs d = some stores) (hs : alHas stores sn = true) :
    alGet (createStoreModel st d sn ix).1.dbs d = some stores ∧
    (createStoreModel st d sn ix).1.cache.contains d = true ∧
    (∀ d2, d2 ≠ d → alGet (createStoreModel st d sn ix).1.dbs d2 = alGet st.dbs d2) := by
  unfold createStoreModel
  by_cases hc : st.cache.contains d = true
  · simp only [hc, if_true]
    exact ⟨hd, trivial, fun _ _ => trivial⟩
  · rw [if_neg hc]
    dsimp only
    rw [hd]
    dsimp only [Option.getD]
    rw [if_pos hs]
    refine ⟨alGet_alSet_self _ _ _, ?_, ?_⟩
    · simp [List.contains_cons]
    · intro d2 h2
      exact alGet_alSet_ne _ _ _ _ h2

theorem getStore_after {st1 : ScState} {d sn : String}
    {stores : List (String × StoreData)} {sd : StoreData}
    (hc : st1.cache.contains d = true)
    (hd : alGet st1.dbs d = some stores) (hs : alGet stores sn = some sd) :
    getStoreModel st1 d sn = Except.ok sd.records := by
  unfold getStoreModel getDBModel
  rw [if_pos hc]
  dsimp only
  rw [hd]
  dsimp only [Option.getD]
  rw [hs]

theorem updChain_eval (settings : Settings) (now d : Int) :
    vowChain (updOptions d) settings now = updChain settings d := rfl

theorem vow_updOptions_ok {data : JSObj} {settings : Settings} {now d : Int}
    (hid : hasField data "id" = true) (hidnum : typeOf (getField data "id") = "number") :
    validateOptionsWrite data (updOptions d) settings now =
      Except.ok (updChain settings d) := by
  have t5 : vowT5 data (vowChain (updOptions d) settings now) = false := by
    unfold vowT5
    rw [updChain_eval]
    rw [show getField (updChain settings d) "update" = JSVal.boolean true from rfl]
    rw [hid, hidnum]
    rfl
  have h := @vow_eval_ok data (updOptions d) settings now rfl rfl rfl rfl t5 rfl
  rw [updChain_eval] at h
  exact h

theorem vdw_updChain_ok {data : JSObj} {settings : Settings} {d : Int}
    (h6 : hasField data "expires" = false) (h7 : hasField data "createdAt" = false)
    (h8 : hasField data "updatedAt" = false) :
    validateDataWrite data (updChain settings d) = Except.ok () := by
  unfold validateDataWrite
  have hcond : (!truthy (getField (updChain settings d) "update") && hasField data "id")
      = false := by
    rw [show getField (updChain settings d) "update" = JSVal.boolean true from rfl]
    rfl
  simp only [h6, h7, h8, hcond, Bool.false_eq_true, if_false, pure_bind]
  rfl

/-- C3: a write is rejected when `data` carries an `id` but `options.update`
is unset; when `options.update` is `true` but `data.id` is missing or not a
number; and an update targeting an `id` absent from the store is rejected
with the not-found error naming the database and the missing id. -/
theorem c3_write_rejections :
    (∀ (st : ScState) (sn : String) (data options : JSObj) (settings : Settings) (now : Int),
      hasField data "id" = true → hasField options "update" = false →
      isErr (writeModel st sn data options settings now).1 = true)
    ∧ (∀ (st : ScState) (sn : String) (data options : JSObj) (settings : Settings) (now : Int),
      getField options "update" = JSVal.boolean true →
      (hasField data "id" = false ∨ typeOf (getField data "id") ≠ "number") →
      isErr (writeModel st sn data options settings now).1 = true)
    ∧ (∀ (st : ScState) (sn : String) (data : JSObj) (settings : Settings) (now d k : Int)
        (stores : List (String × StoreData)) (sd : StoreData),
      alGet st.dbs settings.INDEXEDDB_DATABASE = some stores →
      alGet stores sn = some sd →
      sd.records.find? (fun r => idbKeyEq (getField r "id") (JSVal.num k)) = none →
      getField data "id" = JSVal.num k → hasField data "id" = true →
      hasField data "expires" = false → hasField data "createdAt" = false →
      hasField data "updatedAt" = false →
      (writeModel st sn data (updOptions d) settings now).1 =
        Except.error ("Error while updating data in " ++ settings.INDEXEDDB_DATABASE ++
          ". Id " ++ toString k ++ " not found.")) := by
  refine ⟨?_, ?_, ?_⟩
  · intro st sn data options settings now hid hu
    cases hv : validateOptionsWrite data options settings now with
    | error e =>
      rw [writeModel_vow_err hv]
      rfl
    | ok opts =>
      cases hw : validateDataWrite data opts with
      | error e =>
        rw [writeModel_vdw_err hv hw]
        rfl
      | ok u =>
        exfalso
        cases u
        obtain ⟨-, -, s3, -⟩ := vdw_ok_shape hw
        have hg : getField options "update" = JSVal.undef := getField_undef_of_not_hasField hu
        have hnt := vow_ok_update_not_truthy hv (by rw [hg]; rfl)
        rcases s3 with s3 | s3
        · simp [hnt] at s3
        · simp [hid] at s3
  · intro st sn data options settings now hu hbad
    cases hv : validateOptionsWrite data options settings now with
    | error e =>
      rw [writeModel_vow_err hv]
      rfl
    | ok opts =>
      exfalso
      obtain ⟨hid, hnum⟩ := vow_ok_update_true hv hu
      rcases hbad with hbad | hbad
      · simp [hid] at hbad
      · exact hbad hnum
  · intro st sn data settings now d k stores sd hd hsd hfind hdataid hid h6 h7 h8
    have hidnum : typeOf (getField data "id") = "number" := by rw [hdataid]; rfl
    have hvow := @vow_updOptions_ok data settings now d hid hidnum
    have hvdw := @vdw_updChain_ok data settings d h6 h7 h8
    unfold writeModel
    rw [hvow]
    dsimp only
    rw [hvdw]
    dsimp only
    rw [show strOf (getField (updChain settings d) "database")
      = settings.INDEXEDDB_DATABASE from rfl]
    rw [show parseIndexes (getField (updChain settings d) "indexes")
      = ([] : List IndexDecl) from rfl]
    rw [show createStoreAborts st settings.INDEXEDDB_DATABASE sn [] = false from rfl]
    simp only [Bool.false_eq_true, if_false]
    obtain ⟨e1, e2, e3⟩ := @createStore_exists st settings.INDEXEDDB_DATABASE sn stores []
      hd (alHas_of_alGet hsd)
    rw [getStore_after e2 e1 hsd]
    dsimp only
    rw [show truthy (getField (updChain settings d) "update") = true from rfl, if_pos rfl]
    unfold updateDataInStoreModel
    rw [hdataid, hfind]
    rfl

set_option maxHeartbeats 2000000 in
/-- C3 witness: the three rejection modes at concrete inputs — `data.id`
without `update`, `update: true` without a numeric `data.id`, and an update
against an id absent from the store. -/
theorem c3_witness :
    (hasField [("id", JSVal.num 1)] "id" = true ∧
      hasField ([] : JSObj) "update" = false ∧
      isErr (writeModel sampleState "todos" [("id", JSVal.num 1)] [] sampleSettings 0).1
        = true) ∧
    (getField [("update", JSVal.boolean true)] "update" = JSVal.boolean true ∧
      hasField [("todo", JSVal.str "x")] "id" = false ∧
      isErr (writeModel sampleState "todos" [("todo", JSVal.str "x")]
        [("update", JSVal.boolean true)] sampleSettings 0).1 = true) ∧
    ((writeModel sampleState "todos" [("id", JSVal.num 1)] (updOptions 50) sampleSettings 0).1
      = Except.error ("Error while updating data in " ++ sampleSettings.INDEXEDDB_DATABASE ++
          ". Id " ++ toString (1 : Int) ++ " not found.")) :=
  ⟨⟨rfl, rfl, c3_write_rejections.1 sampleState "todos" [("id", JSVal.num 1)] [] sampleSettings 0
      rfl rfl⟩,
   ⟨rfl, rfl, c3_write_rejections.2.1 sampleState "todos" [("todo", JSVal.str "x")]
      [("update", JSVal.boolean true)] sampleSettings 0 rfl (Or.inl rfl)⟩,
   c3_write_rejections.2.2 sampleState "todos" [("id", JSVal.num 1)] sampleSettings 0 50 1
      [("todos", sampleStore)] sampleStore rfl rfl rfl rfl rfl rfl rfl rfl⟩

theorem storeRecsD_setStoreRecs_self {st : ScState} {d s : String} {recs : List JSObj}
    {stores : List (String × StoreData)} {sd : StoreData}
    (hd : alGet st.dbs d = some stores) (hs : alGet stores s = some sd) :
    storeRecsD (setStoreRecs st d s recs) d s = recs := by
  unfold setStoreRecs
  rw [hd]
  dsimp only
  rw [hs]
  dsimp only
  unfold storeRecsD storeData?
  rw [alGet_alSet_self]
  dsimp only [Option.bind]
  rw [alGet_alSet_self]
  rfl

theorem storeRecsD_closeIfRequested (o : JSObj) (st : ScState) (d s : String) :
    storeRecsD (closeIfRequested o st) d s = storeRecsD st d s := by
  unfold closeIfRequested closeDBModel
  split
  · split
    · rfl
    · rfl
  · rfl

theorem storeRecsD_pushTrace (st : ScState) (x : String) (d s : String) :
    storeRecsD (pushTrace st x) d s = storeRecsD st d s := rfl

/-- C2 (amended): updating a record with `write {update: true}` resolves
`true` and replaces the record with id `k` by `{...data, expires:
existing.expires, createdAt: existing.createdAt, updatedAt: now}` — the
original `expires` is always kept (a caller-supplied expiry in the options is
ignored on update), `createdAt` is kept, `updatedAt` is set to the update
time, and every non-reserved caller field is carried over. -/
theorem c2_update_envelope
    (st : ScState) (sn : String) (data : JSObj) (settings : Settings) (now d k : Int)
    (stores : List (String × StoreData)) (sd : StoreData) (existing : JSObj)
    (hd : alGet st.dbs settings.INDEXEDDB_DATABASE = some stores)
    (hsd : alGet stores sn = some sd)
    (hfind : sd.records.find? (fun r => idbKeyEq (getField r "id") (JSVal.num k))
      = some existing)
    (hdataid : getField data "id" = JSVal.num k) (hid : hasField data "id" = true)
    (h6 : hasField data "expires" = false) (h7 : hasField data "createdAt" = false)
    (h8 : hasField data "updatedAt" = false) :
    (writeModel st sn data (updOptions d) settings now).1 = Except.ok true
    ∧ storeRecsD (writeModel st sn data (updOptions d) settings now).2
        settings.INDEXEDDB_DATABASE sn
      = sd.records.map (fun r => if idbKeyEq (getField r "id") (JSVal.num k) then
          updatedEnvelope data existing now else r)
    ∧ getField (updatedEnvelope data existing now) "expires" = getField existing "expires"
    ∧ getField (updatedEnvelope data existing now) "createdAt" = getField existing "createdAt"
    ∧ getField (updatedEnvelope data existing now) "updatedAt" = JSVal.num now
    ∧ (∀ f, f ≠ "expires" → f ≠ "createdAt" → f ≠ "updatedAt" →
        getField (updatedEnvelope data existing now) f = getField data f) := by
  have hidnum : typeOf (getField data "id") = "number" := by rw [hdataid]; rfl
  have hvow := @vow_updOptions_ok data settings now d hid hidnum
  have hvdw := @vdw_updChain_ok data settings d h6 h7 h8
  obtain ⟨e1, e2, e3⟩ := @createStore_exists st settings.INDEXEDDB_DATABASE sn stores []
    hd (alHas_of_alGet hsd)
  have hw : writeModel st sn data (updOptions d) settings now =
      (Except.ok true, closeIfRequested (updChain settings d)
        (pushTrace (setStoreRecs (createStoreModel st settings.INDEXEDDB_DATABASE sn []).1
          settings.INDEXEDDB_DATABASE sn
          (sd.records.map (fun r => if idbKeyEq (getField r "id") (JSVal.num k) then
            updatedEnvelope data existing now else r))) "store.put")) := by
    unfold writeModel
    rw [hvow]
    dsimp only
    rw [hvdw]
    dsimp only
    rw [show strOf (getField (updChain settings d) "database")
      = settings.INDEXEDDB_DATABASE from rfl]
    rw [show parseIndexes (getField (updChain settings d) "indexes")
      = ([] : List IndexDecl) from rfl]
    rw [show createStoreAborts st settings.INDEXEDDB_DATABASE sn [] = false from rfl]
    simp only [Bool.false_eq_true, if_false]
    rw [getStore_after e2 e1 hsd]
    dsimp only
    rw [show truthy (getField (updChain settings d) "update") = true from rfl, if_pos rfl]
    unfold updateDataInStoreModel
    rw [hdataid, hfind]
    rfl
  refine ⟨by rw [hw], ?_, ?_, ?_, ?_, ?_⟩
  · rw [hw]
    dsimp only
    rw [storeRecsD_closeIfRequested, storeRecsD_pushTrace]
    exact storeRecsD_setStoreRecs_self e1 hsd
  · unfold updatedEnvelope
    rw [getField_setField_ne _ _ _ _ (by decide), getField_setField_ne _ _ _ _ (by decide),
      getField_setField_self]
  · unfold updatedEnvelope
    rw [getField_setField_ne _ _ _ _ (by decide), getField_setField_self]
  · unfold updatedEnvelope
    rw [getField_setField_self]
  · intro f hf1 hf2 hf3
    unfold updatedEnvelope
    rw [getField_setField_ne _ _ _ _ hf3, getField_setField_ne _ _ _ _ hf2,
      getField_setField_ne _ _ _ _ hf1]

set_option maxHeartbeats 4000000 in
/-- C2 counterexample: updating id 1 while supplying a fresh expiry
DURATION of 99999 ms (`expires: 99999`, a number, at clock 50): validation
does recompute the expiry to `new Date(50 + 99999)`, yet the stored record
keeps the original `expires` of 100 — update never uses the recomputed
value, refuting the claim's recompute clause. -/
theorem c2_counterexample :
    typeOf (getField [("update", JSVal.boolean true), ("expires", JSVal.num 99999)]
      "expires") = "number" ∧
    getField (vowChain [("update", JSVal.boolean true), ("expires", JSVal.num 99999)]
      sampleSettings 50) "expires" = JSVal.date (50 + 99999) ∧
    (writeModel c2State "todos" [("id", JSVal.num 1), ("v", JSVal.str "new")]
      [("update", JSVal.boolean true), ("expires", JSVal.num 99999)] sampleSettings 50).1
      = Except.ok true ∧
    storeRecsD (writeModel c2State "todos" [("id", JSVal.num 1), ("v", JSVal.str "new")]
        [("update", JSVal.boolean true), ("expires", JSVal.num 99999)] sampleSettings 50).2
        "default" "todos"
      = [[("id", JSVal.num 1), ("v", JSVal.str "new"), ("expires", JSVal.num 100),
          ("createdAt", JSVal.num 10), ("updatedAt", JSVal.num 50)]] ∧
    (100 : Int) ≠ 50 + 99999 :=
  ⟨rfl, rfl, rfl, rfl, by decide⟩

set_option maxHeartbeats 2000000 in
/-- C2 witness: the amended update theorem applied at the concrete state
`c2State`, record id 1, new caller field `v`. -/
theorem c2_witness :
    ((writeModel c2State "todos" [("id", JSVal.num 1), ("v", JSVal.str "new")]
        (updOptions 99999) sampleSettings 50).1 = Except.ok true)
      ∧ (storeRecsD (writeModel c2State "todos" [("id", JSVal.num 1), ("v", JSVal.str "new")]
          (updOptions 99999) sampleSettings 50).2 sampleSettings.INDEXEDDB_DATABASE "todos"
        = c2Store.records.map (fun r => if idbKeyEq (getField r "id") (JSVal.num 1) then
            updatedEnvelope [("id", JSVal.num 1), ("v", JSVal.str "new")] c2Record 50 else r))
      ∧ (getField (updatedEnvelope [("id", JSVal.num 1), ("v", JSVal.str "new")] c2Record 50)
          "expires" = getField c2Record "expires")
      ∧ (getField (updatedEnvelope [("id", JSVal.num 1), ("v", JSVal.str "new")] c2Record 50)
          "createdAt" = getField c2Record "createdAt")
      ∧ (getField (updatedEnvelope [("id", JSVal.num 1), ("v", JSVal.str "new")] c2Record 50)
          "updatedAt" = JSVal.num 50) :=
  ⟨(c2_update_envelope c2State "todos" [("id", JSVal.num 1), ("v", JSVal.str "new")]
      sampleSettings 50 99999 1 [("todos", c2Store)] c2Store c2Record
      rfl rfl rfl rfl rfl rfl rfl rfl).1,
   (c2_update_envelope c2State "todos" [("id", JSVal.num 1), ("v", JSVal.str "new")]
      sampleSettings 50 99999 1 [("todos", c2Store)] c2Store c2Record
      rfl rfl rfl rfl rfl rfl rfl rfl).2.1,
   (c2_update_envelope c2State "todos" [("id", JSVal.num 1), ("v", JSVal.str "new")]
      sampleSettings 50 99999 1 [("todos", c2Store)] c2Store c2Record
      rfl rfl rfl rfl rfl rfl rfl rfl).2.2.1,
   (c2_update_envelope c2State "todos" [("id", JSVal.num 1), ("v", JSVal.str "new")]
      sampleSettings 50 99999 1 [("todos", c2Store)] c2Store c2Record
      rfl rfl rfl rfl rfl rfl rfl rfl).2.2.2.1,
   (c2_update_envelope c2State "todos" [("id", JSVal.num 1), ("v", JSVal.str "new")]
      sampleSettings 50 99999 1 [("todos", c2Store)] c2Store c2Record
      rfl rfl rfl rfl rfl rfl rfl rfl).2.2.2.2.1⟩

theorem vdo_eq (options : JSObj) (settings : Settings) :
    validateDeleteOptions options settings = vdoStaged options settings := rfl

theorem vdo_eval_ok {options : JSObj} {settings : Settings}
    (t0 : vdoT0 options = false) (t1 : vdoT1 (vdoS1 options) = false)
    (t2 : vdoT2 (vdoS1 options) = false)
    (t3 : vdoT3 (vdoS2 (vdoS1 options) settings) = false) :
    validateDeleteOptions options settings = Except.ok (vdoChain options settings) := by
  rw [vdo_eq]
  unfold vdoStaged
  simp only [t0, t1, t2, t3, Bool.false_eq_true, if_false, pure_bind]
  rfl

theorem vdo_ok_shape {options : JSObj} {settings : Settings} {opts : JSObj}
    (h : validateDeleteOptions options settings = Except.ok opts) :
    opts = vdoChain options settings := by
  rw [vdo_eq] at h
  unfold vdoStaged at h
  cases t0 : vdoT0 options with
  | true => simp [t0, throwBindEq, mapThrowEq] at h
  | false =>
    simp only [t0] at h
    cases t1 : vdoT1 (vdoS1 options) with
    | true => simp [t1, throwBindEq, mapThrowEq] at h
    | false =>
      simp only [t1] at h
      cases t2 : vdoT2 (vdoS1 options) with
      | true => simp [t2, throwBindEq, mapThrowEq] at h
      | false =>
        simp only [t2] at h
        cases t3 : vdoT3 (vdoS2 (vdoS1 options) settings) with
        | true => simp [t3, throwBindEq, mapThrowEq] at h
        | false =>
          simp only [t3, Bool.false_eq_true, if_false, pure_bind] at h
          have h2 : (Except.ok (vdoS3 (vdoS2 (vdoS1 options) settings) settings) :
              Except String JSObj) = Except.ok opts := h
          cases h2
          rfl

theorem getField_vdoS1_ne (o : JSObj) (k : String) (h : k ≠ "type") :
    getField (vdoS1 o) k = getField o k := by
  unfold vdoS1
  split
  · exact getField_setField_ne o "type" k _ h
  · rfl

theorem getField_vdoS2_ne (o : JSObj) (settings : Settings) (k : String) (h : k ≠ "database") :
    getField (vdoS2 o settings) k = getField o k := by
  unfold vdoS2
  split
  · exact getField_setField_ne o "database" k _ h
  · rfl

theorem getField_vdoS3_ne (o : JSObj) (settings : Settings) (k : String)
    (h : k ≠ "closeDatabase") : getField (vdoS3 o settings) k = getField o k := by
  unfold vdoS3
  split
  · exact getField_setField_ne o "closeDatabase" k _ h
  · rfl

theorem getField_vdoChain_type (o : JSObj) (settings : Settings) :
    getField (vdoChain o settings) "type" =
      (if typeOf (getField o "type") != "string" then JSVal.str "data"
       else getField o "type") := by
  unfold vdoChain
  rw [getField_vdoS3_ne _ _ _ (by decide), getField_vdoS2_ne _ _ _ (by decide)]
  unfold vdoS1
  split
  · rw [getField_setField_self]
  · rfl

theorem vdo_lazy_eval (sn dn : String) (settings : Settings) :
    validateDeleteOptions (lazyDeleteOpts sn dn) settings =
      Except.ok (lazyChain sn dn settings) := by
  have t0 : vdoT0 (lazyDeleteOpts sn dn) = false := by
    unfold vdoT0
    rw [show getField (lazyDeleteOpts sn dn) "storeName" = JSVal.str sn from rfl]
    simp [typeOf]
  have h := @vdo_eval_ok (lazyDeleteOpts sn dn) settings t0 rfl rfl rfl
  rw [show vdoChain (lazyDeleteOpts sn dn) settings = lazyChain sn dn settings from rfl] at h
  exact h

theorem lazyDelete_eq (settings : Settings) (sn dn : String) (k : Int) (st : ScState) :
    boundDelete settings (JSVal.num k) (lazyDeleteOpts sn dn) st
      = deleteDataModel (JSVal.num k) (lazyChain sn dn settings) st := by
  unfold boundDelete deleteModel
  rw [vdo_lazy_eval]
  rfl

theorem openDBNone_cache (st : ScState) (D : String) :
    (openDBModel st D none).1.cache.contains D = true := by
  unfold openDBModel
  by_cases hc : st.cache.contains D = true
  · simp only [hc, if_true]
  · rw [if_neg hc]
    dsimp only
    simp [List.contains_cons]

theorem openDBNone_recs (st : ScState) (D d2 s2 : String) :
    storeRecsD (openDBModel st D none).1 d2 s2 = storeRecsD st d2 s2 := by
  unfold openDBModel
  by_cases hc : st.cache.contains D = true
  · simp only [hc, if_true]
  · rw [if_neg hc]
    dsimp only
    unfold storeRecsD storeData?
    by_cases hd : d2 = D
    · subst hd
      rw [alGet_alSet_self]
      cases hg : alGet st.dbs d2 with
      | none => rfl
      | some stores => rfl
    · rw [alGet_alSet_ne _ _ _ _ hd]

theorem storeRecsD_eq_match (st : ScState) (D sn : String) :
    storeRecsD st D sn = (match alGet ((alGet st.dbs D).getD []) sn with
      | some sd => sd.records
      | none => []) := by
  unfold storeRecsD storeData?
  cases hd : alGet st.dbs D with
  | none => rfl
  | some stores =>
    dsimp only [Option.bind, Option.getD]
    cases hs : alGet stores sn with
    | none => rfl
    | some sd => rfl

theorem storeRecsD_setStoreRecs_other {st : ScState} {D sn : String} {recs : List JSObj}
    {d2 s2 : String} (hne : ¬(d2 = D ∧ s2 = sn)) :
    storeRecsD (setStoreRecs st D sn recs) d2 s2 = storeRecsD st d2 s2 := by
  unfold setStoreRecs
  cases hd : alGet st.dbs D with
  | none => rfl
  | some stores =>
    dsimp only
    cases hs : alGet stores sn with
    | none => rfl
    | some sd =>
      dsimp only
      unfold storeRecsD storeData?
      dsimp only
      by_cases h2 : d2 = D
      · subst h2
        rw [alGet_alSet_self]
        have hs2 : s2 ≠ sn := fun hh => hne ⟨rfl, hh⟩
        rw [hd]
        dsimp only [Option.bind]
        rw [alGet_alSet_ne _ _ _ _ hs2]
      · rw [alGet_alSet_ne _ _ _ _ h2]

theorem getStoreModel_eq (st1 : ScState) (D sn : String)
    (hc : st1.cache.contains D = true) :
    getStoreModel st1 D sn = (match alGet ((alGet st1.dbs D).getD []) sn with
      | some sd => Except.ok sd.records
      | none => Except.error ("The store '" ++ sn ++ "' in '" ++ D ++ "' doesn't exist")) := by
  unfold getStoreModel getDBModel
  rw [if_pos hc]

/-- The record deletion issued by the lazy-expiry path: afterwards the
(default-database) store holds no record with the deleted id, and no store
of any database gains a record. -/
theorem deleteData_spec {k : Int} {opts : JSObj} {st : ScState} {D sn : String}
    (hD : getField opts "database" = JSVal.str D) (hDne : D ≠ "")
    (hsn : getField opts "storeName" = JSVal.str sn) (hsne : sn ≠ "") :
    (∀ r2, r2 ∈ storeRecsD (deleteDataModel (JSVal.num k) opts st).2 D sn →
        idbKeyEq (getField r2 "id") (JSVal.num k) = false)
    ∧ (∀ d2 s2 r2, r2 ∈ storeRecsD (deleteDataModel (JSVal.num k) opts st).2 d2 s2 →
        r2 ∈ storeRecsD st d2 s2) := by
  have c1 : (!truthy (getField opts "database")) = false := by
    rw [hD]
    have hb : (D == "") = false := beq_false_of_ne hDne
    simp [truthy, bne, hb]
  have c2 : (!truthy (getField opts "storeName")) = false := by
    rw [hsn]
    have hb : (sn == "") = false := beq_false_of_ne hsne
    simp [truthy, bne, hb]
  unfold deleteDataModel
  simp only [c1, c2, Bool.false_eq_true, if_false,
    show (typeOf (JSVal.num k) != "number") = false from rfl]
  simp only [hD, hsn]
  simp only [show strOf (JSVal.str D) = D from rfl, show strOf (JSVal.str sn) = sn from rfl]
  rw [getStoreModel_eq _ _ _ (openDBNone_cache st D)]
  cases hfind : alGet ((alGet (openDBModel st D none).1.dbs D).getD []) sn with
  | none =>
    dsimp only
    constructor
    · intro r2 hr2
      rw [storeRecsD_closeIfRequested, storeRecsD_eq_match, hfind] at hr2
      simp at hr2
    · intro d2 s2 r2 hr2
      rw [storeRecsD_closeIfRequested, openDBNone_recs] at hr2
      exact hr2
  | some sd =>
    dsimp only
    cases hd1 : alGet (openDBModel st D none).1.dbs D with
    | none =>
      rw [hd1] at hfind
      simp [alGet] at hfind
    | some stores1 =>
      rw [hd1] at hfind
      dsimp only [Option.getD] at hfind
      constructor
      · intro r2 hr2
        rw [storeRecsD_pushTrace, storeRecsD_setStoreRecs_self hd1 hfind] at hr2
        have hp := (List.mem_filter.mp hr2).2
        simpa using hp
      · intro d2 s2 r2 hr2
        rw [storeRecsD_pushTrace] at hr2
        by_cases hcase : d2 = D ∧ s2 = sn
        · obtain ⟨e1, e2⟩ := hcase
          subst e1
          subst e2
          rw [storeRecsD_setStoreRecs_self hd1 hfind] at hr2
          have hmem := (List.mem_filter.mp hr2).1
          rw [← openDBNone_recs st d2 d2 s2]
          have hrecs : storeRecsD (openDBModel st d2 none).1 d2 s2 = sd.records := by
            rw [storeRecsD_eq_match, hd1]
            dsimp only [Option.getD]
            rw [hfind]
          rw [hrecs]
          exact hmem
        · rw [storeRecsD_setStoreRecs_other hcase] at hr2
          rw [← openDBNone_recs st D d2 s2]
          exact hr2

theorem deleteData_mono (key : JSVal) (opts : JSObj) (st : ScState) :
    ∀ d2 s2 r2, r2 ∈ storeRecsD (deleteDataModel key opts st).2 d2 s2 →
      r2 ∈ storeRecsD st d2 s2 := by
  intro d2 s2 r2 h
  unfold deleteDataModel at h
  by_cases c1 : (!truthy (getField opts "database")) = true
  · rw [if_pos c1] at h
    exact h
  · rw [if_neg c1] at h
    by_cases c2 : (!truthy (getField opts "storeName")) = true
    · rw [if_pos c2] at h
      exact h
    · rw [if_neg c2] at h
      by_cases c3 : (typeOf key != "number") = true
      · rw [if_pos c3] at h
        exact h
      · rw [if_neg c3] at h
        dsimp only at h
        rw [getStoreModel_eq _ _ _
          (openDBNone_cache st (strOf (getField opts "database")))] at h
        cases hfind : alGet ((alGet (openDBModel st (strOf (getField opts "database"))
            none).1.dbs (strOf (getField opts "database"))).getD [])
            (strOf (getField opts "storeName")) with
        | none =>
          rw [hfind] at h
          dsimp only at h
          rw [storeRecsD_closeIfRequested, openDBNone_recs] at h
          exact h
        | some sd =>
          rw [hfind] at h
          dsimp only at h
          cases hd1 : alGet (openDBModel st (strOf (getField opts "database")) none).1.dbs
              (strOf (getField opts "database")) with
          | none =>
            rw [hd1] at hfind
            simp [alGet] at hfind
          | some stores1 =>
            rw [hd1] at hfind
            dsimp only [Option.getD] at hfind
            rw [storeRecsD_pushTrace] at h
            by_cases hcase : d2 = strOf (getField opts "database") ∧
                s2 = strOf (getField opts "storeName")
            · obtain ⟨e1, e2⟩ := hcase
              rw [e1, e2] at h
              rw [e1, e2]
              rw [storeRecsD_setStoreRecs_self hd1 hfind] at h
              have hmem := (List.mem_filter.mp h).1
              rw [← openDBNone_recs st (strOf (getField opts "database"))
                (strOf (getField opts "database")) (strOf (getField opts "storeName"))]
              have hrecs : storeRecsD (openDBModel st (strOf (getField opts "database")) none).1
                  (strOf (getField opts "database")) (strOf (getField opts "storeName"))
                  = sd.records := by
                rw [storeRecsD_eq_match, hd1]
                dsimp only [Option.getD]
                rw [hfind]
              rw [hrecs]
              exact hmem
            · rw [storeRecsD_setStoreRecs_other hcase] at h
              rw [← openDBNone_recs st (strOf (getField opts "database")) d2 s2]
              exact h

theorem lazyDelete_cases (settings : Settings) (sn dn : String) (key : JSVal) (st : ScState) :
    (boundDelete settings key (lazyDeleteOpts sn dn) st).2 = st ∨
    (boundDelete settings key (lazyDeleteOpts sn dn) st)
      = deleteDataModel key (lazyChain sn dn settings) st := by
  unfold boundDelete deleteModel
  cases key with
  | num k =>
    right
    rw [vdo_lazy_eval]
    rfl
  | str s =>
    right
    rw [vdo_lazy_eval]
    rfl
  | undef => left; rfl
  | null => left; rfl
  | boolean b => left; rfl
  | date ms => left; rfl
  | arr xs => left; rfl
  | obj o => left; rfl

theorem lazyDelete_mono (settings : Settings) (sn dn : String) (key : JSVal) (st : ScState) :
    ∀ d2 s2 r2, r2 ∈ storeRecsD (boundDelete settings key (lazyDeleteOpts sn dn) st).2 d2 s2 →
      r2 ∈ storeRecsD st d2 s2 := by
  intro d2 s2 r2 h
  rcases lazyDelete_cases settings sn dn key st with hc | hc
  · rw [hc] at h
    exact h
  · rw [hc] at h
    exact deleteData_mono key (lazyChain sn dn settings) st d2 s2 r2 h

theorem lazyDelete_clears (settings : Settings) (sn dn : String) (k : Int) (st : ScState)
    (hDne : settings.INDEXEDDB_DATABASE ≠ "") (hsne : sn ≠ "") :
    ∀ r2, r2 ∈ storeRecsD (boundDelete settings (JSVal.num k) (lazyDeleteOpts sn dn) st).2
      settings.INDEXEDDB_DATABASE sn → idbKeyEq (getField r2 "id") (JSVal.num k) = false := by
  rw [lazyDelete_eq]
  exact (@deleteData_spec k (lazyChain sn dn settings) st settings.INDEXEDDB_DATABASE sn
    rfl hDne rfl hsne).1

theorem hasField_of_find {o : JSObj} {k : String} {p : String × JSVal}
    (hf : o.find? (fun kv => kv.1 == k) = some p) : hasField o k = true := by
  have hp := List.find?_some hf
  have hm := List.mem_of_find?_eq_some hf
  unfold hasField
  rw [List.any_eq_true]
  exact ⟨p, hm, hp⟩

theorem hasField_of_getField_num {o : JSObj} {k : String} {n : Int}
    (h : getField o k = JSVal.num n) : hasField o k = true := by
  unfold getField at h
  cases hf : o.find? (fun kv => kv.1 == k) with
  | none =>
    rw [hf] at h
    simp at h
  | some p => exact hasField_of_find hf

theorem readAllLoop_preserveNoK (settings : Settings) (sn dn : String) (now : Int) (k : Int) :
    ∀ (L : List JSObj) (st : ScState) (d0 s0 : String),
      (∀ r2 ∈ storeRecsD st d0 s0, idbKeyEq (getField r2 "id") (JSVal.num k) = false) →
      ∀ r2 ∈ storeRecsD (readAllLoop (boundDelete settings) dn sn now L st).2 d0 s0,
        idbKeyEq (getField r2 "id") (JSVal.num k) = false := by
  intro L
  induction L with
  | nil =>
    intro st d0 s0 hinv r2 h
    exact hinv r2 h
  | cons a t ih =>
    intro st d0 s0 hinv r2 h
    unfold readAllLoop at h
    by_cases b1 : (!hasField a "expires" || !truthy (getField a "expires")) = true
    · rw [if_pos b1] at h
      cases hres : readAllLoop (boundDelete settings) dn sn now t st with
      | mk tail st2 =>
        rw [hres] at h
        dsimp only at h
        apply ih st d0 s0 hinv r2
        rw [hres]
        exact h
    · rw [if_neg b1] at h
      by_cases b2 : jsGtNum now (getField a "expires") = true
      · rw [if_pos b2] at h
        dsimp only at h
        exact ih _ d0 s0
          (fun r3 h3 => hinv r3 (lazyDelete_mono settings sn dn _ st d0 s0 r3 h3)) r2 h
      · rw [if_neg b2] at h
        cases hres : readAllLoop (boundDelete settings) dn sn now t st with
        | mk tail st2 =>
          rw [hres] at h
          dsimp only at h
          apply ih st d0 s0 hinv r2
          rw [hres]
          exact h

theorem readAllLoop_clears (settings : Settings) (sn dn : String) (now : Int) (k : Int)
    (r : JSObj) (hDne : settings.INDEXEDDB_DATABASE ≠ "") (hsne : sn ≠ "")
    (hid1 : getField r "id" = JSVal.num k)
    (he1 : hasField r "expires" = true) (he2 : truthy (getField r "expires") = true)
    (he3 : jsGtNum now (getField r "expires") = true) :
    ∀ (L : List JSObj) (st : ScState), r ∈ L →
      (∀ r2 ∈ L, idbKeyEq (getField r2 "id") (JSVal.num k) = true → r2 = r) →
      ∀ r2 ∈ storeRecsD (readAllLoop (boundDelete settings) dn sn now L st).2
          settings.INDEXEDDB_DATABASE sn,
        idbKeyEq (getField r2 "id") (JSVal.num k) = false := by
  intro L
  induction L with
  | nil =>
    intro st hm
    simp at hm
  | cons a t ih =>
    intro st hmem huniq r2 h2
    unfold readAllLoop at h2
    by_cases hak : idbKeyEq (getField a "id") (JSVal.num k) = true
    · have hae : a = r := huniq a (List.mem_cons_self a t) hak
      have b1 : (!hasField a "expires" || !truthy (getField a "expires")) = false := by
        rw [hae, he1, he2]
        rfl
      rw [if_neg (by simp [b1])] at h2
      have b2 : jsGtNum now (getField a "expires") = true := by
        rw [hae]
        exact he3
      rw [if_pos b2] at h2
      dsimp only at h2
      have hkey : getField a "id" = JSVal.num k := by
        rw [hae]
        exact hid1
      rw [hkey] at h2
      exact readAllLoop_preserveNoK settings sn dn now k t _ settings.INDEXEDDB_DATABASE sn
        (lazyDelete_clears settings sn dn k st hDne hsne) r2 h2
    · have hrt : r ∈ t := by
        rcases List.mem_cons.mp hmem with he | ht2
        · exfalso
          apply hak
          rw [he] at hid1
          rw [hid1]
          simp [idbKeyEq]
        · exact ht2
      have huniq2 : ∀ r3 ∈ t, idbKeyEq (getField r3 "id") (JSVal.num k) = true → r3 = r :=
        fun r3 h3 => huniq r3 (List.mem_cons_of_mem a h3)
      by_cases b1 : (!hasField a "expires" || !truthy (getField a "expires")) = true
      · rw [if_pos b1] at h2
        cases hres : readAllLoop (boundDelete settings) dn sn now t st with
        | mk tail st2 =>
          rw [hres] at h2
          dsimp only at h2
          apply ih st hrt huniq2 r2
          rw [hres]
          exact h2
      · rw [if_neg b1] at h2
        by_cases b2 : jsGtNum now (getField a "expires") = true
        · rw [if_pos b2] at h2
          dsimp only at h2
          exact ih _ hrt huniq2 r2 h2
        · rw [if_neg b2] at h2
          cases hres : readAllLoop (boundDelete settings) dn sn now t st with
          | mk tail st2 =>
            rw [hres] at h2
            dsimp only at h2
            apply ih st hrt huniq2 r2
            rw [hres]
            exact h2

theorem readAllLoop_dataArr_noK (settings : Settings) (sn dn : String) (now : Int) (k : Int) :
    ∀ (L : List JSObj) (st : ScState),
      (∀ a ∈ L, idbKeyEq (getField a "id") (JSVal.num k) = true →
        (!hasField a "expires" || !truthy (getField a "expires")) = false ∧
          jsGtNum now (getField a "expires") = true) →
      ∀ r2 ∈ (readAllLoop (boundDelete settings) dn sn now L st).1,
        idbKeyEq (getField r2 "id") (JSVal.num k) = false := by
  intro L
  induction L with
  | nil =>
    intro st _ r2 h2
    rw [show readAllLoop (boundDelete settings) dn sn now [] st = ([], st) from rfl] at h2
    simp at h2
  | cons a t ih =>
    intro st hexp r2 h2
    unfold readAllLoop at h2
    have hexp2 : ∀ a2 ∈ t, idbKeyEq (getField a2 "id") (JSVal.num k) = true →
        (!hasField a2 "expires" || !truthy (getField a2 "expires")) = false ∧
          jsGtNum now (getField a2 "expires") = true :=
      fun a2 h3 => hexp a2 (List.mem_cons_of_mem a h3)
    by_cases hak : idbKeyEq (getField a "id") (JSVal.num k) = true
    · obtain ⟨b1, b2⟩ := hexp a (List.mem_cons_self a t) hak
      rw [if_neg (by simp [b1]), if_pos b2] at h2
      dsimp only at h2
      exact ih _ hexp2 r2 h2
    · have hdone : ∀ (tail : List JSObj) (st2 : ScState),
          readAllLoop (boundDelete settings) dn sn now t st = (tail, st2) →
          r2 ∈ a :: tail → idbKeyEq (getField r2 "id") (JSVal.num k) = false := by
        intro tail st2 hres hmem
        rcases List.mem_cons.mp hmem with he | ht2
        · rw [he]
          cases hx : idbKeyEq (getField a "id") (JSVal.num k) with
          | false => rfl
          | true => exact absurd hx hak
        · apply ih st hexp2 r2
          rw [hres]
          exact ht2
      by_cases b1 : (!hasField a "expires" || !truthy (getField a "expires")) = true
      · rw [if_pos b1] at h2
        cases hres : readAllLoop (boundDelete settings) dn sn now t st with
        | mk tail st2 =>
          rw [hres] at h2
          dsimp only at h2
          exact hdone tail st2 hres h2
      · rw [if_neg b1] at h2
        by_cases b2 : jsGtNum now (getField a "expires") = true
        · rw [if_pos b2] at h2
          dsimp only at h2
          exact ih _ hexp2 r2 h2
        · rw [if_neg b2] at h2
          cases hres : readAllLoop (boundDelete settings) dn sn now t st with
          | mk tail st2 =>
            rw [hres] at h2
            dsimp only at h2
            exact hdone tail st2 hres h2

/-- C1 (amended): a read that targets the configured default database (the
lazy delete always goes there, since it passes the database under the unread
key `databaseName`) deletes and excludes an expired record.  By id and by
index, any found record with a numeric `expires` and `now > expires` is
removed from the store and the read resolves not-found.  In a full scan, any
such record whose `expires` is nonzero is removed and excluded from the
returned list — records with a missing or zero (falsy) `expires` are instead
returned as-is. -/
theorem c1_lazy_expiry :
    (∀ (st : ScState) (sn : String) (options : JSObj) (settings : Settings) (now e k : Int)
      (r : JSObj),
      getField options "database" = JSVal.str settings.INDEXEDDB_DATABASE →
      settings.INDEXEDDB_DATABASE ≠ "" → sn ≠ "" →
      (storeRecsD st settings.INDEXEDDB_DATABASE sn).find?
        (fun r2 => idbKeyEq (getField r2 "id") (getField options "id")) = some r →
      getField r "expires" = JSVal.num e → now > e → getField r "id" = JSVal.num k →
      (readDataByIDModel st sn options (boundDelete settings) now).1
        = Except.ok (readNullResult (truthy (getField options "withMeta")))
      ∧ (∀ r2 ∈ storeRecsD (readDataByIDModel st sn options (boundDelete settings) now).2
          settings.INDEXEDDB_DATABASE sn,
          idbKeyEq (getField r2 "id") (JSVal.num k) = false))
    ∧ (∀ (st : ScState) (sn : String) (options : JSObj) (settings : Settings) (now e k : Int)
      (sd : StoreData) (decl : IndexDecl) (r : JSObj),
      getField options "database" = JSVal.str settings.INDEXEDDB_DATABASE →
      settings.INDEXEDDB_DATABASE ≠ "" → sn ≠ "" →
      storeData? st settings.INDEXEDDB_DATABASE sn = some sd →
      sd.indexes.find? (fun d2 => d2.indexName == strOf (getField options "index"))
        = some decl →
      sd.records.find? (fun r2 => indexMatches decl r2 (getField options "nameValue"))
        = some r →
      getField r "expires" = JSVal.num e → now > e → getField r "id" = JSVal.num k →
      (readDataByIndexAndNameValueModel st sn options (boundDelete settings) now).1
        = Except.ok (readNullResult (truthy (getField options "withMeta")))
      ∧ (∀ r2 ∈ storeRecsD (readDataByIndexAndNameValueModel st sn options
          (boundDelete settings) now).2 settings.INDEXEDDB_DATABASE sn,
          idbKeyEq (getField r2 "id") (JSVal.num k) = false))
    ∧ (∀ (st : ScState) (sn : String) (options : JSObj) (settings : Settings) (now e k : Int)
      (r : JSObj),
      getField options "database" = JSVal.str settings.INDEXEDDB_DATABASE →
      settings.INDEXEDDB_DATABASE ≠ "" → sn ≠ "" →
      r ∈ storeRecsD st settings.INDEXEDDB_DATABASE sn →
      (∀ r2 ∈ storeRecsD st settings.INDEXEDDB_DATABASE sn,
        idbKeyEq (getField r2 "id") (JSVal.num k) = true → r2 = r) →
      getField r "expires" = JSVal.num e → e ≠ 0 → now > e → getField r "id" = JSVal.num k →
      (∀ r2 ∈ (readAllLoop (boundDelete settings) settings.INDEXEDDB_DATABASE sn now
          (storeRecsD st settings.INDEXEDDB_DATABASE sn) st).1,
        idbKeyEq (getField r2 "id") (JSVal.num k) = false)
      ∧ (∀ r2 ∈ storeRecsD (readAllDataModel st sn options (boundDelete settings) now).2
          settings.INDEXEDDB_DATABASE sn,
        idbKeyEq (getField r2 "id") (JSVal.num k) = false)) := by
  refine ⟨?_, ?_, ?_⟩
  · intro st sn options settings now e k r hdb hDne hsne hfind hexp hlt hidk
    have hgt : jsGtNum now (getField r "expires") = true := by
      rw [hexp]
      simp [jsGtNum, hlt]
    unfold readDataByIDModel
    simp only [hdb,
      show strOf (JSVal.str settings.INDEXEDDB_DATABASE) = settings.INDEXEDDB_DATABASE from rfl]
    rw [hfind]
    dsimp only
    rw [hgt, if_pos rfl]
    constructor
    · rfl
    · rw [hidk]
      exact lazyDelete_clears settings sn settings.INDEXEDDB_DATABASE k st hDne hsne
  · intro st sn options settings now e k sd decl r hdb hDne hsne hsd hix hfind hexp hlt hidk
    have hgt : jsGtNum now (getField r "expires") = true := by
      rw [hexp]
      simp [jsGtNum, hlt]
    unfold readDataByIndexAndNameValueModel
    simp only [hdb,
      show strOf (JSVal.str settings.INDEXEDDB_DATABASE) = settings.INDEXEDDB_DATABASE from rfl]
    rw [hsd]
    dsimp only
    rw [hix]
    dsimp only
    rw [hfind]
    dsimp only
    rw [hgt, if_pos rfl]
    constructor
    · rfl
    · rw [hidk]
      exact lazyDelete_clears settings sn settings.INDEXEDDB_DATABASE k st hDne hsne
  · intro st sn options settings now e k r hdb hDne hsne hmem huniq hexp he0 hlt hidk
    have he1 : hasField r "expires" = true := hasField_of_getField_num hexp
    have he2 : truthy (getField r "expires") = true := by
      rw [hexp]
      simp [truthy, bne, beq_false_of_ne he0]
    have he3 : jsGtNum now (getField r "expires") = true := by
      rw [hexp]
      simp [jsGtNum, hlt]
    constructor
    · apply readAllLoop_dataArr_noK settings sn settings.INDEXEDDB_DATABASE now k _ st
      intro a ha hak
      have hae := huniq a ha hak
      refine ⟨?_, ?_⟩
      · rw [hae, he1, he2]
        rfl
      · rw [hae]
        exact he3
    · intro r2 h2
      unfold readAllDataModel at h2
      simp only [hdb,
        show strOf (JSVal.str settings.INDEXEDDB_DATABASE)
          = settings.INDEXEDDB_DATABASE from rfl] at h2
      rw [storeRecsD_closeIfRequested] at h2
      exact readAllLoop_clears settings sn settings.INDEXEDDB_DATABASE now k r hDne hsne
        hidk he1 he2 he3 (storeRecsD st settings.INDEXEDDB_DATABASE sn) st hmem huniq r2 h2

set_option maxHeartbeats 2000000 in
/-- C1 counterexample: at clock 5 a full scan returns the record whose
`expires` timestamp 0 lies in the past, and deletes nothing — falsy `expires`
values take the "invalid item without expire" branch of `readAllData` and are
pushed onto the result. -/
theorem c1_counterexample :
    ((0 : Int) < 5) ∧
    getField c1ZeroRecord "expires" = JSVal.num 0 ∧
    (readAllDataModel c1ZeroState "s" [("database", JSVal.str "default")]
        (boundDelete sampleSettings) 5).1
      = Except.ok (JSVal.arr [JSVal.obj c1ZeroRecord]) ∧
    (readAllDataModel c1ZeroState "s" [("database", JSVal.str "default")]
        (boundDelete sampleSettings) 5).2 = c1ZeroState :=
  ⟨by decide, rfl, rfl, rfl⟩

set_option maxHeartbeats 2000000 in
/-- C1 witness: reading id 2 at clock 50 finds the record expired at 10 and
resolves null. -/
theorem c1_witness :
    ((storeRecsD c1WitState "default" "todos").find?
        (fun r2 => idbKeyEq (getField r2 "id") (getField c1WitOptions "id"))
      = some c1WitRecord) ∧
    ((50 : Int) > 10) ∧
    ((readDataByIDModel c1WitState "todos" c1WitOptions (boundDelete sampleSettings) 50).1
      = Except.ok (readNullResult (truthy (getField c1WitOptions "withMeta")))) :=
  ⟨rfl, by decide,
    (c1_lazy_expiry.1 c1WitState "todos" c1WitOptions sampleSettings 50 10 2 c1WitRecord
      rfl (by decide) (by decide) rfl rfl (by decide) rfl).1⟩

/-- C9: when a read meets an expired record and the lazy-expiry deletion
itself fails, the failure is swallowed: the read still resolves
null/`{data: null}` for that record instead of rejecting — by index via the
`.catch` branch, by id because the delete is fire-and-forget. -/
theorem c9_failed_lazy_delete_swallowed :
    (∀ (st : ScState) (sn : String) (options : JSObj) (dm : DeleteMethod) (now : Int)
      (sd : StoreData) (decl : IndexDecl) (r : JSObj) (msg : String),
      storeData? st (strOf (getField options "database")) sn = some sd →
      sd.indexes.find? (fun d2 => d2.indexName == strOf (getField options "index"))
        = some decl →
      sd.records.find? (fun r2 => indexMatches decl r2 (getField options "nameValue"))
        = some r →
      jsGtNum now (getField r "expires") = true →
      (dm (getField r "id") (lazyDeleteOpts sn (strOf (getField options "database"))) st).1
        = Except.error msg →
      (readDataByIndexAndNameValueModel st sn options dm now).1
        = Except.ok (readNullResult (truthy (getField options "withMeta"))))
    ∧ (∀ (st : ScState) (sn : String) (options : JSObj) (dm : DeleteMethod) (now : Int)
      (r : JSObj) (msg : String),
      (storeRecsD st (strOf (getField options "database")) sn).find?
        (fun r2 => idbKeyEq (getField r2 "id") (getField options "id")) = some r →
      jsGtNum now (getField r "expires") = true →
      (dm (getField r "id") (lazyDeleteOpts sn (strOf (getField options "database"))) st).1
        = Except.error msg →
      (readDataByIDModel st sn options dm now).1
        = Except.ok (readNullResult (truthy (getField options "withMeta")))) := by
  constructor
  · intro st sn options dm now sd decl r msg hsd hix hfind hgt hfail
    unfold readDataByIndexAndNameValueModel
    dsimp only
    rw [hsd]
    dsimp only
    rw [hix]
    dsimp only
    rw [hfind]
    dsimp only
    rw [hgt, if_pos rfl]
  · intro st sn options dm now r msg hfind hgt hfail
    unfold readDataByIDModel
    dsimp only
    rw [hfind]
    dsimp only
    rw [hgt, if_pos rfl]

set_option maxHeartbeats 2000000 in
/-- C9 witness: a delete method that always rejects still lets the by-id read
of an expired record resolve null. -/
theorem c9_witness :
    ((storeRecsD c1WitState (strOf (getField c1WitOptions "database")) "todos").find?
        (fun r2 => idbKeyEq (getField r2 "id") (getField c1WitOptions "id"))
      = some c1WitRecord) ∧
    jsGtNum 50 (getField c1WitRecord "expires") = true ∧
    (((fun _ _ s => (Except.error "delete failed", s)) : DeleteMethod)
        (getField c1WitRecord "id")
        (lazyDeleteOpts "todos" (strOf (getField c1WitOptions "database"))) c1WitState).1
      = Except.error "delete failed" ∧
    (readDataByIDModel c1WitState "todos" c1WitOptions
        (fun _ _ s => (Except.error "delete failed", s)) 50).1
      = Except.ok (readNullResult (truthy (getField c1WitOptions "withMeta"))) :=
  ⟨rfl, rfl, rfl,
    c9_failed_lazy_delete_swallowed.2 c1WitState "todos" c1WitOptions
      (fun _ _ s => (Except.error "delete failed", s)) 50 c1WitRecord "delete failed"
      rfl rfl rfl⟩

/-- C5 (amended): when the store already exists, `createStore` changes no
store of any database (no index recreation, no error), whatever the caller
indexes; when the store is absent AND no connection to the database is cached
AND no index name is duplicated, the native open fires the version upgrade,
which creates the store with keyPath `id`, autoIncrement true, the implicit
`id` index first and then every caller-declared index in order; but when a
caller-declared index duplicates a name (e.g. `id`), `store.createIndex`
throws `ConstraintError`, the upgrade aborts and NO store is created.  (With
a cached connection the upgrade never fires at all: see the
counterexample.) -/
theorem c5_ensure_store :
    (∀ (st : ScState) (d sn : String) (ix : List IndexDecl)
      (stores : List (String × StoreData)),
      alGet st.dbs d = some stores → alHas stores sn = true →
      ∀ d2 s2, storeData? (createStoreModel st d sn ix).1 d2 s2 = storeData? st d2 s2)
    ∧ (∀ (st : ScState) (d sn : String) (ix : List IndexDecl),
      st.cache.contains d = false →
      alHas ((alGet st.dbs d).getD []) sn = false →
      hasDupIndexName (idIndexDecl :: ix) = false →
      (createStoreModel st d sn ix).2 = true ∧
      storeData? (createStoreModel st d sn ix).1 d sn =
        some { keyPath := "id", autoIncrement := true, indexes := idIndexDecl :: ix,
               records := [] })
    ∧ (∀ (st : ScState) (d sn : String) (ix : List IndexDecl),
      st.cache.contains d = false →
      alHas ((alGet st.dbs d).getD []) sn = false →
      hasDupIndexName (idIndexDecl :: ix) = true →
      (createStoreModel st d sn ix).2 = true ∧
      ((createStoreModel st d sn ix).1).dbs = st.dbs ∧
      ((createStoreModel st d sn ix).1).cache = st.cache ∧
      storeData? (createStoreModel st d sn ix).1 d sn = none) := by
  refine ⟨?_, ?_, ?_⟩
  · intro st d sn ix stores hd hs
    unfold createStoreModel
    by_cases hc : st.cache.contains d = true
    · simp only [hc, if_true]
      intro d2 s2
      trivial
    · rw [if_neg hc]
      dsimp only
      rw [hd]
      dsimp only [Option.getD]
      rw [if_pos hs]
      intro d2 s2
      unfold storeData?
      dsimp only
      by_cases h2 : d2 = d
      · subst h2
        rw [alGet_alSet_self, hd]
      · rw [alGet_alSet_ne _ _ _ _ h2]
  · intro st d sn ix hcache hstores hnodup
    have hc : ¬(st.cache.contains d = true) := by
      rw [hcache]
      exact Bool.false_ne_true
    unfold createStoreModel
    rw [if_neg hc]
    dsimp only
    rw [if_neg (by simp [hstores])]
    rw [if_neg (by simp [hnodup])]
    constructor
    · rfl
    · unfold storeData?
      dsimp only
      rw [alGet_alSet_self]
      dsimp only [Option.bind]
      rw [alGet_alSet_self]
  · intro st d sn ix hcache hstores hdup
    have hc : ¬(st.cache.contains d = true) := by
      rw [hcache]
      exact Bool.false_ne_true
    unfold createStoreModel
    rw [if_neg hc]
    dsimp only
    rw [if_neg (by simp [hstores])]
    rw [if_pos hdup]
    refine ⟨rfl, rfl, rfl, ?_⟩
    unfold storeData?
    dsimp only
    cases hg : alGet st.dbs d with
    | none => rfl
    | some stores =>
      dsimp only [Option.bind]
      rw [hg] at hstores
      dsimp only [Option.getD] at hstores
      exact alGet_none_of_not_alHas hstores

/-- C5 counterexample: two refutations of the unconditional creation — with a
cached connection `createStore` resolves without a native open, so no upgrade
fires and the absent store is NOT created; and with an uncached empty state
but a caller index duplicating the implicit `id` name, the fired upgrade
aborts with `ConstraintError` and again NO store is created. -/
theorem c5_counterexample :
    (c5State.cache.contains "default" = true ∧
      storeData? c5State "default" "todos" = none ∧
      (createStoreModel c5State "default" "todos" []).2 = false ∧
      (createStoreModel c5State "default" "todos" []).1 = c5State ∧
      storeData? (createStoreModel c5State "default" "todos" []).1 "default" "todos"
        = none) ∧
    ((ScState.mk [] [] []).cache.contains "default" = false ∧
      hasDupIndexName (idIndexDecl :: [idIndexDecl]) = true ∧
      (createStoreModel (ScState.mk [] [] []) "default" "todos" [idIndexDecl]).2 = true ∧
      ((createStoreModel (ScState.mk [] [] []) "default" "todos" [idIndexDecl]).1).dbs
        = [] ∧
      storeData? (createStoreModel (ScState.mk [] [] []) "default" "todos" [idIndexDecl]).1
        "default" "todos" = none) :=
  ⟨⟨rfl, rfl, rfl, rfl, rfl⟩, ⟨rfl, rfl, rfl, rfl, rfl⟩⟩

/-- C5 witness: the three branches at concrete states — the existing store
`todos` of `sampleState` is preserved, on an uncached empty state the upgrade
creates `todos` with the implicit `id` index, and with a duplicate index name
the aborted upgrade creates nothing. -/
theorem c5_witness :
    (alGet sampleState.dbs "default" = some [("todos", sampleStore)] ∧
      alHas [("todos", sampleStore)] "todos" = true ∧
      storeData? (createStoreModel sampleState "default" "todos" []).1 "default" "todos"
        = storeData? sampleState "default" "todos") ∧
    ((ScState.mk [] [] []).cache.contains "default" = false ∧
      alHas ((alGet (ScState.mk [] [] []).dbs "default").getD []) "todos" = false ∧
      hasDupIndexName (idIndexDecl :: []) = false ∧
      (createStoreModel (ScState.mk [] [] []) "default" "todos" []).2 = true ∧
      storeData? (createStoreModel (ScState.mk [] [] []) "default" "todos" []).1
          "default" "todos"
        = some { keyPath := "id", autoIncrement := true, indexes := [idIndexDecl],
                 records := [] }) ∧
    (hasDupIndexName (idIndexDecl :: [idIndexDecl]) = true ∧
      (createStoreModel (ScState.mk [] [] []) "default" "todos" [idIndexDecl]).2 = true ∧
      storeData? (createStoreModel (ScState.mk [] [] []) "default" "todos" [idIndexDecl]).1
        "default" "todos" = none) :=
  ⟨⟨rfl, rfl,
    c5_ensure_store.1 sampleState "default" "todos" [] [("todos", sampleStore)]
      rfl rfl "default" "todos"⟩,
   ⟨rfl, rfl, rfl,
    (c5_ensure_store.2.1 (ScState.mk [] [] []) "default" "todos" [] rfl rfl rfl).1,
    (c5_ensure_store.2.1 (ScState.mk [] [] []) "default" "todos" [] rfl rfl rfl).2⟩,
   ⟨rfl,
    (c5_ensure_store.2.2 (ScState.mk [] [] []) "default" "todos" [idIndexDecl]
      rfl rfl rfl).1,
    (c5_ensure_store.2.2 (ScState.mk [] [] []) "default" "todos" [idIndexDecl]
      rfl rfl rfl).2.2.2⟩⟩

/-- C6 (amended): `openDB` resolves the cached connection (no native open)
when one is cached, and `closeDB` on a name with no cached connection is a
successful no-op; but there is no outstanding-open dedup — a second open
request arriving before the first one's `onsuccess` caches the connection
issues a second native `indexedDB.open`. -/
theorem c6_open_registry :
    (∀ (s : RegState) (name : String), s.cache.contains name = true →
      openDBStart s name = (s, false))
    ∧ (∀ (s : RegState) (name : String), s.cache.contains name = false →
      (openDBStart s name).2 = true ∧
      (openDBStart (openDBStart s name).1 name).2 = true ∧
      (openDBStart (openDBStart s name).1 name).1.nativeOpens = s.nativeOpens + 2)
    ∧ (∀ (s : RegState) (name : String), s.cache.contains name = false →
      closeDBReg s name = (s, none)) := by
  refine ⟨?_, ?_, ?_⟩
  · intro s name hc
    unfold openDBStart
    rw [if_pos hc]
  · intro s name hne
    have hc : ¬(s.cache.contains name = true) := by
      rw [hne]
      exact Bool.false_ne_true
    unfold openDBStart
    rw [if_neg hc]
    dsimp only
    rw [if_neg hc]
    exact ⟨rfl, rfl, rfl⟩
  · intro s name hne
    have hc : ¬(s.cache.contains name = true) := by
      rw [hne]
      exact Bool.false_ne_true
    unfold closeDBReg
    rw [if_neg hc]

/-- C6 counterexample: with an empty cache, a second open request for `db`
issued before the first one's `onsuccess` has run issues a second native
open — the claimed at-most-one-outstanding-open-per-name dedup does not
exist. -/
theorem c6_counterexample :
    (RegState.mk [] 0).cache.contains "db" = false ∧
    (openDBStart (RegState.mk [] 0) "db").2 = true ∧
    (openDBStart (openDBStart (RegState.mk [] 0) "db").1 "db").2 = true ∧
    (openDBStart (openDBStart (RegState.mk [] 0) "db").1 "db").1.nativeOpens = 2 :=
  ⟨rfl, rfl, rfl, rfl⟩

/-- C6 witness: the three parts at concrete registry states. -/
theorem c6_witness :
    openDBStart (RegState.mk ["db"] 3) "db" = (RegState.mk ["db"] 3, false) ∧
    ((openDBStart (RegState.mk [] 0) "other").2 = true ∧
      (openDBStart (openDBStart (RegState.mk [] 0) "other").1 "other").2 = true ∧
      (openDBStart (openDBStart (RegState.mk [] 0) "other").1 "other").1.nativeOpens
        = (RegState.mk [] 0).nativeOpens + 2) ∧
    closeDBReg (RegState.mk [] 0) "db" = (RegState.mk [] 0, none) :=
  ⟨c6_open_registry.1 (RegState.mk ["db"] 3) "db" rfl,
   c6_open_registry.2.1 (RegState.mk [] 0) "other" rfl,
   c6_open_registry.2.2 (RegState.mk [] 0) "db" rfl⟩

/-- C8 (amended): each operation's promise ends settled exactly once (a
JavaScript promise keeps only the first `resolve`/`reject`); create and
update settle only in response to the native request's completion/error
event, but `deleteDatabase` and `deleteData` call `resolve(true)`
synchronously, before the native completion event fires. -/
theorem c8_settlement_order :
    (∀ b, settlesOnce (deleteDatabaseEvents b) = true ∧
      settleBeforeNativeComplete (deleteDatabaseEvents b) = true) ∧
    (settlesOnce deleteDataEvents = true ∧
      settleBeforeNativeComplete deleteDataEvents = true) ∧
    (∀ b, settlesOnce (createDataInStoreEvents b) = true ∧
      settleBeforeNativeComplete (createDataInStoreEvents b) = false) ∧
    (∀ b, settlesOnce (updateDataInStoreEvents b) = true ∧
      settleBeforeNativeComplete (updateDataInStoreEvents b) = false) := by
  decide

/-- C8 counterexample: `deleteDatabase` and `deleteData` settle their promise
strictly before the first native completion event is delivered, refuting
"resolves or rejects only in response to the underlying native request's
completion or error event". -/
theorem c8_counterexample :
    settleBeforeNativeComplete (deleteDatabaseEvents true) = true ∧
    settleBeforeNativeComplete deleteDataEvents = true :=
  ⟨rfl, rfl⟩

/-- C8 witness: the amended settlement facts at concrete outcomes. -/
theorem c8_witness :
    settlesOnce (deleteDatabaseEvents false) = true ∧
    settleBeforeNativeComplete (deleteDatabaseEvents false) = true ∧
    settlesOnce deleteDataEvents = true ∧
    settleBeforeNativeComplete deleteDataEvents = true ∧
    settleBeforeNativeComplete (createDataInStoreEvents false) = false ∧
    settleBeforeNativeComplete (updateDataInStoreEvents false) = false :=
  ⟨(c8_settlement_order.1 false).1, (c8_settlement_order.1 false).2,
   c8_settlement_order.2.1.1, c8_settlement_order.2.1.2,
   (c8_settlement_order.2.2.1 false).2, (c8_settlement_order.2.2.2 false).2⟩

theorem closeDB_dbs (st : ScState) (n : String) :
    ((closeDBModel st n).1).dbs = st.dbs := by
  unfold closeDBModel
  split
  · rfl
  · rfl

theorem storeRecsD_closeDB (st : ScState) (n d2 s2 : String) :
    storeRecsD (closeDBModel st n).1 d2 s2 = storeRecsD st d2 s2 := by
  unfold closeDBModel
  split
  · rfl
  · rfl

/-- C7: the delete granularity is selected by `options.type`, which defaults
to `"data"` (record deletion) and dispatches `"database"`/`"store"` to the
database/store paths; and deletion is idempotent at every granularity:
deleting a non-existent record, a non-existent store or a non-existent
database resolves `true` and leaves the stored data unchanged. -/
theorem c7_delete_granularity :
    (∀ (key : JSVal) (options : JSObj) (settings : Settings) (st : ScState) (opts : JSObj),
      hasField options "type" = false →
      validateDeleteOptions options settings = Except.ok opts →
      (typeOf key = "number" ∨ typeOf key = "string") →
      getField opts "type" = JSVal.str "data" ∧
      deleteModel key options settings st = deleteDataModel key opts st)
    ∧ (∀ (key : JSVal) (options : JSObj) (settings : Settings) (st : ScState) (opts : JSObj),
      (typeOf key = "number" ∨ typeOf key = "string") →
      validateDeleteOptions options settings = Except.ok opts →
      (getField opts "type" = JSVal.str "database" →
        deleteModel key options settings st = deleteDatabaseModel (jsDisplay key) st) ∧
      (getField opts "type" = JSVal.str "store" →
        deleteModel key options settings st = deleteStoreModel (jsDisplay key) opts st))
    ∧ (∀ (opts : JSObj) (st : ScState) (k : Int) (D sn : String)
        (stores : List (String × StoreData)) (sd : StoreData),
      getField opts "database" = JSVal.str D → D ≠ "" →
      getField opts "storeName" = JSVal.str sn → sn ≠ "" →
      alGet st.dbs D = some stores → alGet stores sn = some sd →
      (∀ r ∈ sd.records, idbKeyEq (getField r "id") (JSVal.num k) = false) →
      (deleteDataModel (JSVal.num k) opts st).1 = Except.ok true ∧
      ∀ d2 s2, storeRecsD (deleteDataModel (JSVal.num k) opts st).2 d2 s2
        = storeRecsD st d2 s2)
    ∧ (∀ (key : String) (options : JSObj) (st : ScState) (D : String),
      getField options "database" = JSVal.str D → D ≠ "" →
      alHas ((alGet st.dbs D).getD []) key = false →
      (deleteStoreModel key options st).1 = Except.ok true ∧
      ∀ d2 s2, storeRecsD (deleteStoreModel key options st).2 d2 s2
        = storeRecsD st d2 s2)
    ∧ (∀ (key : String) (st : ScState),
      (deleteDatabaseModel key st).1 = Except.ok true ∧
      (alGet st.dbs key = none →
        ∀ d2, alGet ((deleteDatabaseModel key st).2).dbs d2 = alGet st.dbs d2)) := by
  refine ⟨?_, ?_, ?_, ?_, ?_⟩
  · intro key options settings st opts htype hv hkey
    have hopts := vdo_ok_shape hv
    have hu : getField options "type" = JSVal.undef := getField_undef_of_not_hasField htype
    have htype2 : getField opts "type" = JSVal.str "data" := by
      rw [hopts, getField_vdoChain_type, hu]
      rw [if_pos (by decide)]
    refine ⟨htype2, ?_⟩
    have hkc : (typeOf key != "string" && typeOf key != "number") = false := by
      cases hkey with
      | inl h => rw [h]; rfl
      | inr h => rw [h]; rfl
    unfold deleteModel
    rw [hkc]
    simp only [Bool.false_eq_true, if_false]
    rw [hv]
    dsimp only
    rw [htype2]
    rw [if_neg (by decide), if_neg (by decide)]
  · intro key options settings st opts hkey hv
    have hkc : (typeOf key != "string" && typeOf key != "number") = false := by
      cases hkey with
      | inl h => rw [h]; rfl
      | inr h => rw [h]; rfl
    constructor
    · intro ht
      unfold deleteModel
      rw [hkc]
      simp only [Bool.false_eq_true, if_false]
      rw [hv]
      dsimp only
      rw [ht]
      rw [if_pos (by decide)]
    · intro ht
      unfold deleteModel
      rw [hkc]
      simp only [Bool.false_eq_true, if_false]
      rw [hv]
      dsimp only
      rw [ht]
      rw [if_neg (by decide), if_pos (by decide)]
  · intro opts st k D sn stores sd hD hDne hsn hsne hdb hst hnone
    have c1 : (!truthy (getField opts "database")) = false := by
      rw [hD]
      have hb : (D == "") = false := beq_false_of_ne hDne
      simp [truthy, bne, hb]
    have c2 : (!truthy (getField opts "storeName")) = false := by
      rw [hsn]
      have hb : (sn == "") = false := beq_false_of_ne hsne
      simp [truthy, bne, hb]
    unfold deleteDataModel
    simp only [c1, c2, Bool.false_eq_true, if_false,
      show (typeOf (JSVal.num k) != "number") = false from rfl]
    simp only [hD, hsn]
    simp only [show strOf (JSVal.str D) = D from rfl, show strOf (JSVal.str sn) = sn from rfl]
    rw [getStoreModel_eq _ _ _ (openDBNone_cache st D)]
    have hd1 : alGet (openDBModel st D none).1.dbs D = some stores := by
      unfold openDBModel
      by_cases hcc : st.cache.contains D = true
      · simp only [hcc, if_true]
        exact hdb
      · rw [if_neg hcc]
        dsimp only
        rw [hdb]
        dsimp only [Option.getD]
        exact alGet_alSet_self _ _ _
    rw [hd1]
    dsimp only [Option.getD]
    rw [hst]
    dsimp only
    have hfilt : sd.records.filter (fun r => !idbKeyEq (getField r "id") (JSVal.num k))
        = sd.records :=
      List.filter_eq_self.mpr (fun r hr => by rw [hnone r hr]; rfl)
    constructor
    · rfl
    · intro d2 s2
      rw [storeRecsD_pushTrace]
      by_cases hcase : d2 = D ∧ s2 = sn
      · obtain ⟨e1, e2⟩ := hcase
        subst e1
        subst e2
        rw [storeRecsD_setStoreRecs_self hd1 hst, hfilt]
        rw [storeRecsD_eq_match, hdb]
        dsimp only [Option.getD]
        rw [hst]
      · rw [storeRecsD_setStoreRecs_other hcase]
        exact openDBNone_recs st D d2 s2
  · intro key options st D hD hDne habs
    have c1 : (!truthy (getField options "database")) = false := by
      rw [hD]
      have hb : (D == "") = false := beq_false_of_ne hDne
      simp [truthy, bne, hb]
    unfold deleteStoreModel
    simp only [c1, Bool.false_eq_true, if_false]
    simp only [hD]
    simp only [show strOf (JSVal.str D) = D from rfl]
    constructor
    · trivial
    · intro d2 s2
      have h2 : storeRecsD (openDBModel (closeDBModel st key).1 D (some (fun stores =>
          if alHas stores key then alRemove stores key else stores))).1 d2 s2
          = storeRecsD st d2 s2 := by
        unfold openDBModel
        by_cases hcc : ((closeDBModel st key).1).cache.contains D = true
        · rw [if_pos hcc]
          exact storeRecsD_closeDB st key d2 s2
        · rw [if_neg hcc]
          dsimp only
          rw [closeDB_dbs]
          rw [habs]
          simp only [Bool.false_eq_true, if_false]
          unfold storeRecsD storeData?
          dsimp only
          by_cases hdd : d2 = D
          · subst hdd
            rw [alGet_alSet_self]
            cases hg : alGet st.dbs d2 with
            | none => rfl
            | some stores2 => rfl
          · rw [alGet_alSet_ne _ _ _ _ hdd]
      by_cases hcd : truthy (getField options "closeDatabase") = true
      · rw [if_pos hcd, storeRecsD_closeDB, h2]
      · rw [if_neg hcd, h2]
  · intro key st
    constructor
    · rfl
    · intro habs d2
      unfold deleteDatabaseModel pushTrace
      dsimp only
      rw [closeDB_dbs]
      by_cases hdd : d2 = key
      · subst hdd
        rw [alGet_alRemove_self, habs]
      · exact alGet_alRemove_ne _ _ _ hdd

/-- C7 witness: defaulted-type dispatch and all three idempotent-deletion
granularities at concrete inputs. -/
theorem c7_witness :
    (hasField [("storeName", JSVal.str "todos")] "type" = false ∧
      validateDeleteOptions [("storeName", JSVal.str "todos")] sampleSettings
        = Except.ok c7Opts ∧
      getField c7Opts "type" = JSVal.str "data" ∧
      deleteModel (JSVal.num 1) [("storeName", JSVal.str "todos")] sampleSettings c2State
        = deleteDataModel (JSVal.num 1) c7Opts c2State) ∧
    (deleteModel (JSVal.str "default") [("type", JSVal.str "database")] sampleSettings c2State
      = deleteDatabaseModel (jsDisplay (JSVal.str "default")) c2State) ∧
    ((deleteDataModel (JSVal.num 5) c7Opts c2State).1 = Except.ok true ∧
      storeRecsD (deleteDataModel (JSVal.num 5) c7Opts c2State).2 "default" "todos"
        = storeRecsD c2State "default" "todos") ∧
    ((deleteStoreModel "nosuch" [("database", JSVal.str "default")] c2State).1
        = Except.ok true ∧
      storeRecsD (deleteStoreModel "nosuch" [("database", JSVal.str "default")] c2State).2
          "default" "todos"
        = storeRecsD c2State "default" "todos") ∧
    ((deleteDatabaseModel "nodb" c2State).1 = Except.ok true ∧
      alGet ((deleteDatabaseModel "nodb" c2State).2).dbs "default"
        = alGet c2State.dbs "default") :=
  ⟨⟨rfl, rfl,
    (c7_delete_granularity.1 (JSVal.num 1) [("storeName", JSVal.str "todos")]
      sampleSettings c2State c7Opts rfl rfl (Or.inl rfl)).1,
    (c7_delete_granularity.1 (JSVal.num 1) [("storeName", JSVal.str "todos")]
      sampleSettings c2State c7Opts rfl rfl (Or.inl rfl)).2⟩,
   (c7_delete_granularity.2.1 (JSVal.str "default") [("type", JSVal.str "database")]
      sampleSettings c2State
      [("type", JSVal.str "database"), ("database", JSVal.str "default"),
       ("closeDatabase", JSVal.boolean false)]
      (Or.inr rfl) rfl).1 rfl,
   ⟨(c7_delete_granularity.2.2.1 c7Opts c2State 5 "default" "todos"
      [("todos", c2Store)] c2Store rfl (by decide) rfl (by decide) rfl rfl
      (fun r hr => by
        cases hr with
        | head => rfl
        | tail _ h2 => cases h2)).1,
    (c7_delete_granularity.2.2.1 c7Opts c2State 5 "default" "todos"
      [("todos", c2Store)] c2Store rfl (by decide) rfl (by decide) rfl rfl
      (fun r hr => by
        cases hr with
        | head => rfl
        | tail _ h2 => cases h2)).2 "default" "todos"⟩,
   ⟨(c7_delete_granularity.2.2.2.1 "nosuch" [("database", JSVal.str "default")]
      c2State "default" rfl (by decide) rfl).1,
    (c7_delete_granularity.2.2.2.1 "nosuch" [("database", JSVal.str "default")]
      c2State "default" rfl (by decide) rfl).2 "default" "todos"⟩,
   ⟨(c7_delete_granularity.2.2.2.2 "nodb" c2State).1,
    (c7_delete_granularity.2.2.2.2 "nodb" c2State).2 rfl "default"⟩⟩
